import Mathlib

/-!
Verification development for the timeline controller and interaction engine
of a non-linear video editor (`src/gametime/src/chat_ui/chat.js`,
`src/gametime/src/timeline/js/directives/clip.js`, and the keyframe and
transition directives).  All JavaScript numbers are embedded as rationals
(`ℚ`): the source only performs field arithmetic, `Math.round`, `Math.floor`,
`Math.min`/`Math.max` and comparisons on them, all of which are exact on `ℚ`,
and `isFinite`/`isNaN` guards are vacuously true on `ℚ` and noted where they
occur in the source.  `Math.round` (round half toward `+∞`) coincides with
Lean's `round` on `ℚ`.
-/

namespace Timeline

/-- Modelled from the spec: `snapToFPSGridTime` lives in the repository's
timeline `functions.js`, which is not under `src/` (only callers are).
Spec §4.1: `snapToFPSGridTime(t) = round(t·num/den)·den/num` — rounds to the
nearest whole frame. -/
def snapToFPSGridTime (num den t : ℚ) : ℚ :=
  (round (t * num / den) : ℚ) * den / num

/-- Modelled from the spec: `pixelToTime` lives in the repository's timeline
`functions.js`, which is not under `src/`.  Spec §4.1:
`pixelToTime(px) = px / pixelsPerSecond`. -/
def pixelToTime (pixelsPerSecond px : ℚ) : ℚ :=
  px / pixelsPerSecond

/-! ## §4.7 Missing-transition detection (`$scope.getMissingTransitions`, chat.js) -/

/-- A clip as consumed by `getMissingTransitions` / `getNearbyPosition`:
`position` is the timeline seconds of the left edge, `start`/`stop` the
source-media slice (the JS fields `start`/`end`). -/
structure ClipT where
  id : String
  layer : ℤ
  position : ℚ
  start : ℚ
  stop : ℚ
  deriving DecidableEq, Repr

/-- A transition (stored in `project.effects`): `start`/`stop` are the JS
`start`/`end` fields. -/
structure TranT where
  id : String
  layer : ℤ
  position : ℚ
  start : ℚ
  stop : ℚ
  deriving DecidableEq, Repr

/-- Right edge of a clip in timeline seconds: `position + (end - start)`. -/
def ClipT.right (c : ClipT) : ℚ := c.position + (c.stop - c.start)

/-- Right edge of a transition in timeline seconds. -/
def TranT.right (t : TranT) : ℚ := t.position + (t.stop - t.start)

/-- The proposal object built by `getMissingTransitions`:
`{position, layer, start: 0, end}`. -/
structure Proposal where
  position : ℚ
  layer : ℤ
  start : ℚ
  stop : ℚ
  deriving DecidableEq, Repr

/-- Body of one iteration of the first loop of `getMissingTransitions`
(chat.js:2391-2409): skip clips on another layer, then try the left-edge
rule (`original_left < clip_right && original_left > clip_left`) before the
right-edge rule. -/
def candidateFor (original c : ClipT) : Option Proposal :=
  if original.layer ≠ c.layer then
    none
  else if original.position < c.right ∧ original.position > c.position then
    some ⟨original.position, c.layer, 0, c.right - original.position⟩
  else if original.right > c.position ∧ original.right < c.right then
    some ⟨c.position, c.layer, 0, original.right - c.position⟩
  else
    none

/-- First loop of `getMissingTransitions` (chat.js:2388-2419): scan
`project.clips` in order; a candidate with `end ≥ 0.5` stops the search
(`break`), a smaller candidate is discarded (`transition_size = null`) and
the scan continues, so `transition_size` is always `null` at the top of an
iteration. -/
def firstCandidate (original : ClipT) : List ClipT → Option Proposal
  | [] => none
  | c :: rest =>
    match candidateFor original c with
    | some p => if 1/2 ≤ p.stop then some p else firstCandidate original rest
    | none => firstCandidate original rest

/-- Second loop of `getMissingTransitions` (chat.js:2420-2444): the single
candidate is dropped when a same-layer transition's left or right edge lies
within `TOLERANCE = 0.01` of the candidate's corresponding edge.  The JS
loop breaks at the first conflict, which is observationally `List.any`. -/
def conflictsExisting (trans : List TranT) (p : Proposal) : Bool :=
  trans.any fun t =>
    t.layer = p.layer ∧
      (|t.position - p.position| < 1/100 ∨
        |t.right - (p.position + (p.stop - p.start))| < 1/100)

/-- Embeds `$scope.getMissingTransitions(original_clip)` (chat.js:2379-2447). -/
def getMissingTransitions (clips : List ClipT) (trans : List TranT)
    (original : ClipT) : Option Proposal :=
  match firstCandidate original clips with
  | none => none
  | some p => if conflictsExisting trans p then none else some p

/-- The shape every proposal emitted for `original` has: it is derived from a
same-layer clip `c` by the left-edge rule or the right-edge rule. -/
def ProposalShape (original : ClipT) (clips : List ClipT) (p : Proposal) : Prop :=
  ∃ c ∈ clips, c.layer = original.layer ∧
    ((original.position < c.right ∧ c.position < original.position ∧
        p = ⟨original.position, c.layer, 0, c.right - original.position⟩) ∨
      (c.position < original.right ∧ original.right < c.right ∧
        p = ⟨c.position, c.layer, 0, original.right - c.position⟩))

theorem candidateFor_sound {original c : ClipT} {p : Proposal}
    (h : candidateFor original c = some p) :
    c.layer = original.layer ∧
      ((original.position < c.right ∧ c.position < original.position ∧
          p = ⟨original.position, c.layer, 0, c.right - original.position⟩) ∨
        (c.position < original.right ∧ original.right < c.right ∧
          p = ⟨c.position, c.layer, 0, original.right - c.position⟩)) := by
  unfold candidateFor at h
  split_ifs at h with h1 h2 h3
  · push_neg at h1
    refine ⟨h1.symm, Or.inl ⟨h2.1, h2.2, ?_⟩⟩
    exact (Option.some.injEq _ _).mp h |>.symm
  · push_neg at h1
    refine ⟨h1.symm, Or.inr ⟨h3.1, h3.2, ?_⟩⟩
    exact (Option.some.injEq _ _).mp h |>.symm

theorem firstCandidate_sound (original : ClipT) :
    ∀ (clips : List ClipT) (p : Proposal),
      firstCandidate original clips = some p →
      1/2 ≤ p.stop ∧ ProposalShape original clips p := by
  intro clips
  induction clips with
  | nil => intro p h; simp [firstCandidate] at h
  | cons c rest ih =>
    intro p h
    rcases hc : candidateFor original c with _ | q
    · simp only [firstCandidate, hc] at h
      obtain ⟨hs, d, hd, hrest⟩ := ih p h
      exact ⟨hs, d, List.mem_cons_of_mem c hd, hrest⟩
    · simp only [firstCandidate, hc] at h
      by_cases hq : 1/2 ≤ q.stop
      · rw [if_pos hq] at h
        obtain rfl : q = p := (Option.some.injEq _ _).mp h
        obtain ⟨hl, hshape⟩ := candidateFor_sound hc
        exact ⟨hq, c, List.mem_cons_self c rest, hl, hshape⟩
      · rw [if_neg hq] at h
        obtain ⟨hs, d, hd, hrest⟩ := ih p h
        exact ⟨hs, d, List.mem_cons_of_mem c hd, hrest⟩

theorem conflictsExisting_false {trans : List TranT} {p : Proposal}
    (h : conflictsExisting trans p = false) :
    ∀ t ∈ trans, t.layer = p.layer →
      1/100 ≤ |t.position - p.position| ∧
        1/100 ≤ |t.right - (p.position + (p.stop - p.start))| := by
  intro t ht hl
  rw [conflictsExisting, List.any_eq_false] at h
  have := h t ht
  simp only [decide_eq_true_eq, not_and, not_or, not_lt] at this
  exact this hl

/-- Clip A of boundary scenario 4 (spec §8): `{position=0, start=0, end=5, layer=1}`. -/
def clipA : ClipT := ⟨"A", 1, 0, 0, 5⟩

/-- Clip B of boundary scenario 4 (spec §8): `{position=4, start=0, end=6, layer=1}`. -/
def clipB : ClipT := ⟨"B", 1, 4, 0, 6⟩

/-- C1 (amended): every proposal returned by `getMissingTransitions` is
derived from a same-layer clip by the left-edge rule
(`{position = clip.left, layer, start = 0, end = other.right − clip.left}`)
or the symmetric right-edge rule, has `end ≥ 0.5`, and has no same-layer
transition whose left (resp. right) edge lies within 0.01 s of its left
(resp. right) edge; the scan is sequential with an early break, so the first
candidate of length ≥ 0.5 is the only one ever checked and, when it
conflicts with an existing transition, nothing is proposed at all.  For clip
A `{position=0, start=0, end=5, layer=1}` and dropped clip B
`{position=4, start=0, end=6, layer=1}` the emitted proposal is
`{position=4, layer=1, start=0, end=1}`. -/
theorem missing_transition_sound_and_example :
    (∀ (clips : List ClipT) (trans : List TranT) (original : ClipT)
        (p : Proposal), getMissingTransitions clips trans original = some p →
      1/2 ≤ p.stop ∧ p.start = 0 ∧ ProposalShape original clips p ∧
        (∀ t ∈ trans, t.layer = p.layer →
          1/100 ≤ |t.position - p.position| ∧
            1/100 ≤ |t.right - (p.position + (p.stop - p.start))|)) ∧
    getMissingTransitions [clipA, clipB] [] clipB = some ⟨4, 1, 0, 1⟩ := by
  constructor
  · intro clips trans original p h
    rcases hf : firstCandidate original clips with _ | q
    · simp only [getMissingTransitions, hf] at h
      exact Option.noConfusion h
    · simp only [getMissingTransitions, hf] at h
      rcases hcf : conflictsExisting trans q with _ | _
      · rw [hcf] at h
        simp only [Bool.false_eq_true, if_false, Option.some.injEq] at h
        subst h
        obtain ⟨hs, hshape⟩ := firstCandidate_sound original clips q hf
        have hstart : q.start = 0 := by
          obtain ⟨c, _, _, hc | hc⟩ := hshape
          · rw [hc.2.2]
          · rw [hc.2.2]
        exact ⟨hs, hstart, hshape, conflictsExisting_false hcf⟩
      · rw [hcf] at h; simp at h
  · norm_num [getMissingTransitions, firstCandidate, candidateFor,
      conflictsExisting, ClipT.right, clipA, clipB]

/-- C1 counterexample for the claim as stated: clip `b` (left edge 4) lies
strictly inside same-layer clip `o2` (left 3.5, right 20), the resulting
proposal `{position=4, layer=1, start=0, end=16}` is longer than 0.5 s and
neither of its edges lies within 0.01 s of the existing transition `t`
(edges 8 and 10.003) — yet nothing is proposed, because the scan breaks on
the earlier clip `o1` (right edge 10), whose candidate is killed by `t`. -/
theorem missing_transition_shadowed_counterexample :
    getMissingTransitions
        [⟨"o1", 1, 3, 0, 7⟩, ⟨"o2", 1, 7/2, 0, 33/2⟩, ⟨"b", 1, 4, 0, 26⟩]
        [⟨"t", 1, 8, 0, 2003/1000⟩] ⟨"b", 1, 4, 0, 26⟩ = none ∧
      ((7:ℚ)/2 < 4 ∧ (4:ℚ) < 7/2 + (33/2 - 0)) ∧
      (1/2 : ℚ) ≤ (7/2 + (33/2 - 0)) - 4 ∧
      (1/100 : ℚ) ≤ |8 - (4:ℚ)| ∧
      (1/100 : ℚ) ≤ |(8 + (2003/1000 - 0)) - ((7:ℚ)/2 + (33/2 - 0))| := by
  norm_num [getMissingTransitions, firstCandidate, candidateFor,
    conflictsExisting, ClipT.right, TranT.right, abs]

/-- Witness for `missing_transition_sound_and_example`: instantiated at the
spec's boundary scenario 4. -/
theorem missing_transition_sound_witness :
    ∃ p : Proposal, getMissingTransitions [clipA, clipB] [] clipB = some p ∧
      1/2 ≤ p.stop ∧ p.start = 0 := by
  have heval : getMissingTransitions [clipA, clipB] [] clipB =
      some ⟨4, 1, 0, 1⟩ := missing_transition_sound_and_example.2
  have hs := missing_transition_sound_and_example.1 [clipA, clipB] [] clipB
    ⟨4, 1, 0, 1⟩ heval
  exact ⟨⟨4, 1, 0, 1⟩, heval, hs.1, hs.2.1⟩

/-! ## §4.6 Clip resize/trim (`tlClip` directive, clip.js)

The `stop` handler of `element.resizable` (clip.js:560-705).  `delta_time`
is the quantity computed on lines 582-590: the pixel delta between the
dragged edge's original position and the snapped cursor position, divided
by `pixelsPerSecond` (positive when the edge moved left).  Optional or
possibly non-numeric JS fields (`toNumber(x, NaN)` + `isNaN` guard) are
embedded as `Option ℚ`. -/

/-- The clip's `reader` descriptor, as read by `getReaderDurationSeconds`
and `isSingleImageClip` (clip.js:110-127, 390-416). -/
structure Reader where
  duration : Option ℚ
  video_length : Option ℚ
  fpsNum : Option ℚ
  fpsDen : Option ℚ
  has_single_image : Bool
  media_type : String
  deriving Repr

/-- The clip scope consumed by the resize handlers.  `stop` is the JS `end`
field; `time` is the optional `time` keyframe track (`clip.time.Points`
frame numbers `co.X`). -/
structure RClip where
  position : ℚ
  start : ℚ
  stop : ℚ
  duration : Option ℚ
  reader : Reader
  has_single_image : Bool
  media_type : String
  time : Option (List ℚ)
  deriving Repr

/-- Embeds `getTimePoints()` (clip.js:98-104): `clip.time.Points` or `[]`. -/
def getTimePoints (c : RClip) : List ℚ := c.time.getD []

/-- Embeds `hasTimeKeyframes()` (clip.js:106-108). -/
def hasTimeKeyframes (c : RClip) : Bool := 2 ≤ (getTimePoints c).length

/-- The `(x || "").toString().toLowerCase() === t` comparison of
`isSingleImageClip` (clip.js:117-126), embedded character-wise (the
comparison target `"image"` is ASCII). -/
def lowerEq (s t : String) : Bool := s.data.map Char.toLower == t.data

/-- Embeds `isSingleImageClip()` (clip.js:110-127). -/
def isSingleImageClip (c : RClip) : Bool :=
  c.has_single_image || lowerEq c.media_type "image" ||
    c.reader.has_single_image || lowerEq c.reader.media_type "image"

/-- Embeds `getReaderDurationSeconds()` (clip.js:390-416). -/
def getReaderDurationSeconds (c : RClip) : ℚ :=
  match c.reader.duration with
  | some d =>
    if 0 < d then d else getReaderDurationFallback c
  | none => getReaderDurationFallback c
where
  /-- The `video_length / fps` and `clip.duration` fallbacks
  (clip.js:399-415). -/
  getReaderDurationFallback (c : RClip) : ℚ :=
    match c.reader.video_length, c.reader.fpsNum, c.reader.fpsDen with
    | some vl, some n, some d =>
      if d ≠ 0 ∧ 0 < n / d then vl / (n / d) else getReaderDurationFallback2 c
    | _, _, _ => getReaderDurationFallback2 c
  /-- The `clip.duration` and `end − start` fallbacks (clip.js:409-415). -/
  getReaderDurationFallback2 (c : RClip) : ℚ :=
    match c.duration with
    | some cd => if 0 < cd then cd else max (c.stop - c.start) 0
    | none => max (c.stop - c.start) 0

/-- Embeds `isResizeConstrained()` (clip.js:418-420). -/
def isResizeConstrained (enable_timing : Bool) (c : RClip) : Bool :=
  !enable_timing && !isSingleImageClip c

/-- Embeds `getRetimedDurationSeconds()` (clip.js:444-486): the retimed duration
derived from the `time` curve's frame span, `project.fps` permitting. -/
def getRetimedDurationSeconds (num? den? : Option ℚ) (c : RClip) : Option ℚ :=
  if ¬ hasTimeKeyframes c then none
  else
    match num?, den? with
    | some n, some d =>
      if d = 0 then none
      else
        let fpsValue := n / d
        if ¬ 0 < fpsValue then none
        else
          match getTimePoints c with
          | [] => none
          | f :: fs =>
            let mn := fs.foldl min f
            let mx := fs.foldl max f
            if mx ≤ mn then none else some ((mx - mn) / fpsValue)
    | _, _ => none

/-- Embeds `getMaxDurationSeconds()` (clip.js:422-434): `none` embeds JS `null`
(no limit). -/
def getMaxDurationSeconds (enable_timing : Bool) (num? den? : Option ℚ)
    (c : RClip) : Option ℚ :=
  if enable_timing then none
  else
    match getRetimedDurationSeconds num? den? c with
    | some r => some r
    | none =>
      if ¬ isResizeConstrained enable_timing c then none
      else some (getReaderDurationSeconds c)

/-- Embeds `getMaxClipEndSeconds()` (clip.js:436-442). -/
def getMaxClipEndSeconds (enable_timing : Bool) (num? den? : Option ℚ)
    (c : RClip) : Option ℚ :=
  (getMaxDurationSeconds enable_timing num? den? c).map (fun m => c.start + m)

/-- Which resize handle was grabbed (`dragLoc`, clip.js:534-542). -/
inductive DragSide where
  | left
  | right
  deriving DecidableEq, Repr

/-- Left-handle branch of the resize `stop` handler (clip.js:601-628),
yielding `(new_position, new_left, new_right)` before FPS-grid snapping. -/
def resizeStopLeftRaw (allowLeftOverflow : Bool) (c : RClip) (delta_time : ℚ) :
    ℚ × ℚ × ℚ :=
  let targetStart0 := c.start - delta_time
  let overflow := if targetStart0 < 0 then -targetStart0 else 0
  let targetStart := if targetStart0 < 0 then 0 else targetStart0
  let crosses := c.stop ≤ targetStart
  let new_position :=
    if crosses then c.position
    else c.position - (if 0 < overflow ∧ ¬ allowLeftOverflow then c.start else delta_time)
  let new_left := if crosses then c.stop else targetStart
  let new_right :=
    if 0 < overflow ∧ allowLeftOverflow then c.stop + overflow else c.stop
  (new_position, new_left, new_right)

/-- Right-handle branch of the resize `stop` handler (clip.js:629-639). -/
def resizeStopRightRaw (maxClipEnd : Option ℚ) (c : RClip) (delta_time : ℚ) :
    ℚ × ℚ × ℚ :=
  let new_right := c.stop - delta_time
  let clamped :=
    match maxClipEnd with
    | some m => if m < new_right then m else if new_right < c.start then c.start else new_right
    | none => if new_right < c.start then c.start else new_right
  (c.position, c.start, clamped)

/-- The resize `stop` handler's `(new_position, new_left, new_right)`
computation (clip.js:592-639), before the `$apply` block. -/
def resizeStopRaw (enable_timing : Bool) (num? den? : Option ℚ) (c : RClip)
    (side : DragSide) (delta_time : ℚ) : ℚ × ℚ × ℚ :=
  match side with
  | .left =>
    resizeStopLeftRaw (enable_timing || isSingleImageClip c) c delta_time
  | .right =>
    resizeStopRightRaw (getMaxClipEndSeconds enable_timing num? den? c) c delta_time

/-- The non-timing `$apply` block of the `stop` handler (clip.js:672-686):
`end` is snapped only when `new_right` differs from the stored `end`;
`start` and `position` are compared against their snapped values, which
makes them equal to the snap in either case. -/
def resizeStopCommit (num den : ℚ) (c : RClip) (nvals : ℚ × ℚ × ℚ) : ℚ × ℚ × ℚ :=
  let stop' := if nvals.2.2 = c.stop then c.stop else snapToFPSGridTime num den nvals.2.2
  (snapToFPSGridTime num den nvals.1, snapToFPSGridTime num den nvals.2.1, stop')

/-- Full non-timing resize stop: raw edge arithmetic followed by the
`$apply` commit.  Returns the final `(position, start, end)` stored on the
clip. -/
def resizeStop (num den : ℚ) (c : RClip) (side : DragSide) (delta_time : ℚ) :
    ℚ × ℚ × ℚ :=
  resizeStopCommit num den c (resizeStopRaw false (some num) (some den) c side delta_time)

/-- A reader descriptor with no numeric metadata. -/
def readerNone : Reader := ⟨none, none, none, none, false, ""⟩

/-- Boundary scenario 1 (spec §8), normal clip:
`{position=2.0, start=1.0, end=5.0}`. -/
def c2Normal : RClip := ⟨2, 1, 5, none, readerNone, false, "", none⟩

/-- Boundary scenario 1 (spec §8), single-image clip of identical shape. -/
def c2Image : RClip := ⟨2, 1, 5, none, readerNone, true, "", none⟩

/-- Boundary scenario 2 (spec §8): `reader.duration=6.0, start=1.0, end=4.0`. -/
def c3Clip : RClip := ⟨0, 1, 4, none, ⟨some 6, none, none, none, false, ""⟩, false, "", none⟩

/-- A single-image clip with the same shape as `c3Clip`. -/
def c3Image : RClip := ⟨0, 1, 4, none, ⟨some 6, none, none, none, false, ""⟩, true, "", none⟩

/-- Closed form of the left-handle branch for a normal clip
(`allowLeftOverflow = false`, clip.js:601-628): either the clamped start
crosses the right edge (then start lands on `end` and the position is
untouched), or the new start is `max(0, start − Δt)` and the position
shifts by `min(Δt, start)`; `end` is never modified. -/
theorem resizeStopLeftRaw_false_eq (c : RClip) (Δ : ℚ) :
    resizeStopLeftRaw false c Δ =
      (if c.stop ≤ max 0 (c.start - Δ) then (c.position, c.stop, c.stop)
       else (c.position - min Δ c.start, max 0 (c.start - Δ), c.stop)) := by
  by_cases h0 : c.start < Δ
  · have hmax : max 0 (c.start - Δ) = 0 := max_eq_left (by linarith)
    have hmin : min Δ c.start = c.start := min_eq_right (by linarith)
    have hov : (0:ℚ) < Δ - c.start := by linarith
    rw [hmax, hmin]
    by_cases hc : c.stop ≤ (0:ℚ) <;>
      simp [resizeStopLeftRaw, h0, hc, hov, sub_neg]
  · have hmax : max 0 (c.start - Δ) = c.start - Δ := max_eq_right (by linarith)
    have hmin : min Δ c.start = Δ := min_eq_left (by linarith)
    rw [hmax, hmin]
    by_cases hc : c.stop ≤ c.start - Δ <;>
      simp [resizeStopLeftRaw, h0, hc, lt_irrefl, sub_neg]

/-- C2 counterexample for the claim as stated: at the spec's boundary
scenario 1 (fps 24/1, drag the left handle left by 3.0 s), the normal clip
ends at `position=1.0, start=0.0, end=5.0` — not `position=0.0, start=0.0,
end=4.0` — because only the consumed 1.0 s of `start` is absorbed as a
position shift and `end` is untouched; the single-image clip ends at
`position=−1.0, start=0.0, end=7.0` — not `position=0.0, start=0.0,
end=5.0` — because the full 3.0 s shift is applied to `position` and the
2.0 s overflow extends `end`. -/
theorem left_trim_example_counterexample :
    resizeStop 24 1 c2Normal .left 3 = (1, 0, 5) ∧
      ((1:ℚ), (0:ℚ), (5:ℚ)) ≠ ((0:ℚ), (0:ℚ), (4:ℚ)) ∧
      resizeStop 24 1 c2Image .left 3 = (-1, 0, 7) ∧
      ((-1:ℚ), (0:ℚ), (7:ℚ)) ≠ ((0:ℚ), (0:ℚ), (5:ℚ)) := by
  have hl : lowerEq "" "image" = false := by decide
  refine ⟨?_, by norm_num [Prod.ext_iff], ?_, by norm_num [Prod.ext_iff]⟩ <;>
    norm_num [resizeStop, resizeStopRaw, resizeStopLeftRaw, resizeStopCommit,
      isSingleImageClip, hl, c2Normal, c2Image, readerNone, snapToFPSGridTime,
      round_eq, Prod.ext_iff]

/-- C2 (amended): releasing the left handle of a normal clip (timing mode
off, not single-image) after moving the edge by `Δt` gives new start
`max(0, start − Δt)`, clamped at the right edge (`end`); the position
shifts by `min(Δt, start)`, i.e. overflow past 0 is absorbed by shifting
the position only by the consumed `start`, and `end` is unchanged.  For
clip `{position=2.0, start=1.0, end=5.0}` dragged left by 3.0 s the stored
result is `position=1.0, start=0.0, end=5.0`; for a single-image clip of
identical shape it is `position=−1.0, start=0.0, end=7.0` (overflow extends
the duration and the full shift is applied to the position). -/
theorem left_handle_resize_semantics :
    (∀ (num? den? : Option ℚ) (c : RClip) (Δ : ℚ),
        isSingleImageClip c = false →
        max 0 (c.start - Δ) < c.stop →
        resizeStopRaw false num? den? c .left Δ =
          (c.position - min Δ c.start, max 0 (c.start - Δ), c.stop)) ∧
    (∀ (num? den? : Option ℚ) (c : RClip) (Δ : ℚ),
        isSingleImageClip c = false →
        c.stop ≤ max 0 (c.start - Δ) →
        resizeStopRaw false num? den? c .left Δ = (c.position, c.stop, c.stop)) ∧
    resizeStop 24 1 c2Normal .left 3 = (1, 0, 5) ∧
    resizeStop 24 1 c2Image .left 3 = (-1, 0, 7) := by
  have hl : lowerEq "" "image" = false := by decide
  refine ⟨?_, ?_, ?_, ?_⟩
  · intro num? den? c Δ hsingle hcross
    simp only [resizeStopRaw, hsingle, Bool.or_false,
      resizeStopLeftRaw_false_eq, if_neg (not_le.mpr hcross)]
  · intro num? den? c Δ hsingle hcross
    simp only [resizeStopRaw, hsingle, Bool.or_false,
      resizeStopLeftRaw_false_eq, if_pos hcross]
  · norm_num [resizeStop, resizeStopRaw, resizeStopLeftRaw, resizeStopCommit,
      isSingleImageClip, hl, c2Normal, readerNone, snapToFPSGridTime,
      round_eq, Prod.ext_iff]
  · norm_num [resizeStop, resizeStopRaw, resizeStopLeftRaw, resizeStopCommit,
      isSingleImageClip, hl, c2Image, readerNone, snapToFPSGridTime,
      round_eq, Prod.ext_iff]

/-- Witness for `left_handle_resize_semantics`: the normal-clip branch at
the boundary-scenario values (`Δ = 3`). -/
theorem left_handle_resize_semantics_witness :
    resizeStopRaw false (some 24) (some 1) c2Normal .left 3 = (1, 0, 5) := by
  have h := left_handle_resize_semantics.1 (some 24) (some 1) c2Normal 3
    (by decide) (by norm_num [c2Normal])
  have h2 : (2:ℚ) - 1 = 1 := by norm_num
  simpa [c2Normal, h2] using h

/-- C3 counterexample for the claim as stated: a single-image clip (timing
mode off, no `time` keyframe track) with `reader.duration=6.0, start=1.0,
end=4.0`, dragged right by +10 s, stores `end=14.0 > start + readerDuration
= 7.0`: single-image clips are exempt from the reader-duration clamp. -/
theorem right_trim_single_image_counterexample :
    resizeStop 24 1 c3Image .right (-10) = (0, 1, 14) ∧
      c3Image.reader.duration = some 6 ∧
      hasTimeKeyframes c3Image = false ∧
      ¬ ((14:ℚ) ≤ 1 + 6) := by
  refine ⟨?_, by norm_num [c3Image], by norm_num [hasTimeKeyframes,
    getTimePoints, c3Image], by norm_num⟩
  have hl : lowerEq "" "image" = false := by decide
  norm_num [resizeStop, resizeStopRaw, resizeStopRightRaw, resizeStopCommit,
    getMaxClipEndSeconds, getMaxDurationSeconds, getRetimedDurationSeconds,
    hasTimeKeyframes, getTimePoints, isResizeConstrained, isSingleImageClip,
    hl, c3Image, snapToFPSGridTime, round_eq, Prod.ext_iff]

/-- C3 (amended): on releasing the right handle, the new end cannot exceed
`start + maxDuration`; `maxDuration` is the reader's natural duration
unless timing mode is on (no limit), a `time` keyframe track exists (the
retimed duration derived from the `time` curve's frame span), or the clip
is a single-image clip (no limit).  For `reader.duration=6.0, start=1.0,
end=4.0` dragged right by +10 s the stored end is `7.0`. -/
theorem right_handle_max_duration_semantics :
    (∀ (num? den? : Option ℚ) (c : RClip),
        getMaxDurationSeconds true num? den? c = none) ∧
    (∀ (num den : ℚ) (c : RClip) (f : ℚ) (fs : List ℚ),
        getTimePoints c = f :: fs → 2 ≤ (getTimePoints c).length →
        den ≠ 0 → 0 < num / den → fs.foldl min f < fs.foldl max f →
        getMaxDurationSeconds false (some num) (some den) c =
          some ((fs.foldl max f - fs.foldl min f) / (num / den))) ∧
    (∀ (num? den? : Option ℚ) (c : RClip) (Δ d : ℚ),
        isSingleImageClip c = false → hasTimeKeyframes c = false →
        c.reader.duration = some d → 0 < d →
        (resizeStopRaw false num? den? c .right Δ).2.2 ≤ c.start + d) ∧
    resizeStop 24 1 c3Clip .right (-10) = (0, 1, 7) := by
  refine ⟨?_, ?_, ?_, ?_⟩
  · intro num? den? c
    simp [getMaxDurationSeconds]
  · intro num den c f fs hpts hlen hden hfps hspan
    have hkf : hasTimeKeyframes c = true := by
      simp [hasTimeKeyframes, hlen]
    simp only [getMaxDurationSeconds, if_neg (Bool.not_eq_true _ ▸ rfl)]
    rw [getRetimedDurationSeconds, if_neg (by simp [hkf]), hpts]
    simp [hden, hfps, not_le.mpr hspan]
  · intro num? den? c Δ d hsingle hkf hdur hd
    have hretimed : getRetimedDurationSeconds num? den? c = none := by
      cases num? <;> cases den? <;> simp [getRetimedDurationSeconds, hkf]
    have hconstrained : isResizeConstrained false c = true := by
      simp [isResizeConstrained, hsingle]
    have hreader : getReaderDurationSeconds c = d := by
      rw [getReaderDurationSeconds, hdur]
      simp [hd]
    have hmax : getMaxClipEndSeconds false num? den? c = some (c.start + d) := by
      simp [getMaxClipEndSeconds, getMaxDurationSeconds, hretimed,
        hconstrained, hreader]
    simp only [resizeStopRaw, resizeStopRightRaw, hmax]
    split_ifs <;> linarith
  · have hl : lowerEq "" "image" = false := by decide
    norm_num [resizeStop, resizeStopRaw, resizeStopRightRaw, resizeStopCommit,
      getMaxClipEndSeconds, getMaxDurationSeconds, getRetimedDurationSeconds,
      getReaderDurationSeconds, hasTimeKeyframes, getTimePoints,
      isResizeConstrained, isSingleImageClip, hl, c3Clip, snapToFPSGridTime,
      round_eq, Prod.ext_iff]

/-- Witness for `right_handle_max_duration_semantics`: the reader-duration
clamp instantiated at the boundary-scenario clip. -/
theorem right_handle_max_duration_witness :
    (resizeStopRaw false (some 24) (some 1) c3Clip .right (-10)).2.2 ≤
      c3Clip.start + 6 := by
  exact right_handle_max_duration_semantics.2.2.1 (some 24) (some 1) c3Clip
    (-10) 6
    (by decide)
    (by norm_num [hasTimeKeyframes, getTimePoints, c3Clip])
    (by norm_num [c3Clip]) (by norm_num)

/-! ## Keyframe drag (`tlKeyframe` directive, `src/unnamed/part_001`)

The directive computes the project fps once (`fps = num/den`, part_001:11)
and uses the spec-modelled `snapToFPSGridTime` / `pixelToTime` globals. -/

/-- The entity a keyframe belongs to, as read by `getBounds`
(part_001:31-44): `start` is `toNumber(object.start, 0)`; `end` and
`duration` may be absent (`toNumber(·, NaN)`). -/
structure KObj where
  position : ℚ
  start : ℚ
  stop : Option ℚ
  duration : Option ℚ
  deriving Repr

/-- Embeds `getBounds(object)` (part_001:31-44): resolve `end` from `duration`
when missing, snap both edges to the FPS grid, and order them. -/
def getBounds (num den : ℚ) (o : KObj) : ℚ × ℚ :=
  let start := o.start
  let stop :=
    match o.stop with
    | some e => e
    | none =>
      match o.duration with
      | some d => start + d
      | none => start
  let start' := snapToFPSGridTime num den start
  let stop' := snapToFPSGridTime num den stop
  if stop' < start' then (stop', start') else (start', stop')

/-- Embeds `exclusiveMaxSec(bounds)` (part_001:47-49): the right edge is
exclusive, the last valid time is `end − 1/fps`. -/
def exclusiveMaxSec (num den : ℚ) (bounds : ℚ × ℚ) : ℚ :=
  bounds.2 - 1 / (num / den)

/-- Embeds `snapClampExclusive(secs, bounds)` (part_001:52-60): clamp to
`[start, end − 1/fps]`, snap to the FPS grid, then clamp again (the
post-snap guard). -/
def snapClampExclusive (num den : ℚ) (secs : ℚ) (bounds : ℚ × ℚ) : ℚ :=
  let secs1 := if secs < bounds.1 then bounds.1 else secs
  let maxSec := exclusiveMaxSec num den bounds
  let secs2 := if maxSec < secs1 then maxSec else secs1
  let secs3 := snapToFPSGridTime num den secs2
  let secs4 := if maxSec < secs3 then maxSec else secs3
  if secs4 < bounds.1 then bounds.1 else secs4

/-- Embeds `secondsToFrame(secs, bounds)` (part_001:68-75): frame index with the
end inclusive at `floor(end·fps)`. -/
def secondsToFrame (num den : ℚ) (secs : ℚ) (bounds : ℚ × ℚ) : ℤ :=
  let fps := num / den
  let startFrame := ⌊bounds.1 * fps⌋ + 1
  let endFrame := ⌊bounds.2 * fps⌋
  let f := ⌊secs * fps⌋ + 1
  let f1 := if f < startFrame then startFrame else f
  if endFrame < f1 then endFrame else f1

/-- The host call emitted by `pushKeyframeChange` for a clip
(part_001:77-88): `update_clip_data(json, false /*allow keyframes*/,
true /*force JSON diff*/, ignoreRefresh, transactionId)`; the two booleans
are recorded as `(allow_keyframes, force_json_diff)`. -/
structure KeyframeCommit where
  newFrame : ℤ
  allow_keyframes : Bool
  force_json_diff : Bool
  deriving DecidableEq, Repr

/-- The `stop` handler of the keyframe draggable (part_001:171-208): from
the final pixel `left`, recompute the snapped and clamped seconds and the
candidate frame; commit through `pushKeyframeChange` only when the frame
changed. -/
def keyframeDragStop (num den pps : ℚ) (o : KObj) (left : ℚ)
    (currentFrame : ℤ) : Option KeyframeCommit :=
  let bounds := getBounds num den o
  let secs := pixelToTime pps left + o.start
  let secs' := snapClampExclusive num den secs bounds
  let newFrame := secondsToFrame num den secs' bounds
  if newFrame ≠ currentFrame then some ⟨newFrame, false, true⟩ else none

/-- Time `t` lies on the FPS grid: `snapToFPSGridTime` fixes it. -/
def GridAligned (num den t : ℚ) : Prop := snapToFPSGridTime num den t = t

theorem gridAligned_of_int_mul {num den t : ℚ} (hnum : num ≠ 0)
    (hden : den ≠ 0) (k : ℤ) (h : t * (num / den) = k) :
    GridAligned num den t := by
  unfold GridAligned snapToFPSGridTime
  have ht : t * num / den = (k:ℚ) := by rw [mul_div_assoc]; exact h
  rw [ht, round_intCast]
  have hk : (k:ℚ) = t * (num / den) := h.symm
  rw [hk]
  field_simp

theorem int_mul_of_gridAligned {num den t : ℚ} (hnum : num ≠ 0)
    (hden : den ≠ 0) (h : GridAligned num den t) :
    t * (num / den) = (round (t * num / den) : ℚ) := by
  unfold GridAligned snapToFPSGridTime at h
  conv_lhs => rw [show t = (round (t * num / den) : ℚ) * den / num from h.symm]
  field_simp

theorem round_monotone {a b : ℚ} (h : a ≤ b) : round a ≤ round b := by
  rw [round_eq, round_eq]
  exact Int.floor_le_floor (by linarith)

theorem snap_monotone {num den a b : ℚ} (hnum : 0 < num) (hden : 0 < den)
    (h : a ≤ b) : snapToFPSGridTime num den a ≤ snapToFPSGridTime num den b := by
  unfold snapToFPSGridTime
  have hfq : (0:ℚ) < den / num := by positivity
  have : round (a * num / den) ≤ round (b * num / den) := by
    apply round_monotone
    have hnd : (0:ℚ) < num / den := by positivity
    rw [mul_div_assoc, mul_div_assoc]
    exact mul_le_mul_of_nonneg_right h (le_of_lt hnd)
  calc (round (a * num / den) : ℚ) * den / num
      = (round (a * num / den) : ℚ) * (den / num) := by ring
    _ ≤ (round (b * num / den) : ℚ) * (den / num) := by
        exact mul_le_mul_of_nonneg_right (by exact_mod_cast this) (le_of_lt hfq)
    _ = (round (b * num / den) : ℚ) * den / num := by ring

theorem snap_idem {num den t : ℚ} (hnum : num ≠ 0) (hden : den ≠ 0) :
    GridAligned num den (snapToFPSGridTime num den t) := by
  apply gridAligned_of_int_mul hnum hden (round (t * num / den))
  unfold snapToFPSGridTime
  field_simp

/-- Core clamp-and-snap property: with grid-aligned, ordered bounds whose
window `[lo, hi − 1/F]` is nonempty, `snapClampExclusive` lands inside the
window and on the FPS grid. -/
theorem snapClampExclusive_spec {num den : ℚ} (hnum : 0 < num)
    (hden : 0 < den) (secs lo hi : ℚ) (hlo : GridAligned num den lo)
    (hhi : GridAligned num den hi) (hwin : lo ≤ hi - 1 / (num / den)) :
    lo ≤ snapClampExclusive num den secs (lo, hi) ∧
      snapClampExclusive num den secs (lo, hi) ≤ hi - 1 / (num / den) ∧
      GridAligned num den (snapClampExclusive num den secs (lo, hi)) := by
  have hnum' : num ≠ 0 := ne_of_gt hnum
  have hden' : den ≠ 0 := ne_of_gt hden
  have hmaxAligned : GridAligned num den (hi - 1 / (num / den)) := by
    apply gridAligned_of_int_mul hnum' hden' (round (hi * num / den) - 1)
    have hhiInt := int_mul_of_gridAligned hnum' hden' hhi
    calc (hi - 1 / (num / den)) * (num / den)
        = hi * (num / den) - 1 := by field_simp
      _ = (round (hi * num / den) : ℚ) - 1 := by rw [hhiInt]
      _ = ((round (hi * num / den) - 1 : ℤ) : ℚ) := by push_cast; ring
  unfold snapClampExclusive exclusiveMaxSec
  simp only
  set maxSec := hi - 1 / (num / den) with hms
  set secs1 := if secs < lo then lo else secs with hs1
  have h1lo : lo ≤ secs1 := by
    rw [hs1]; split_ifs with h <;> [exact le_refl lo; linarith [not_lt.mp h]]
  set secs2 := if maxSec < secs1 then maxSec else secs1 with hs2
  have h2 : lo ≤ secs2 ∧ secs2 ≤ maxSec := by
    rw [hs2]; split_ifs with h
    · exact ⟨hwin, le_refl _⟩
    · exact ⟨h1lo, not_lt.mp h⟩
  set secs3 := snapToFPSGridTime num den secs2 with hs3
  have h3lo : lo ≤ secs3 := by
    calc lo = snapToFPSGridTime num den lo := hlo.symm
      _ ≤ secs3 := snap_monotone hnum hden h2.1
  have h3hi : secs3 ≤ maxSec := by
    calc secs3 ≤ snapToFPSGridTime num den maxSec :=
          snap_monotone hnum hden h2.2
      _ = maxSec := hmaxAligned
  have h3aligned : GridAligned num den secs3 := snap_idem hnum' hden'
  rw [if_neg (not_lt.mpr h3hi), if_neg (not_lt.mpr h3lo)]
  exact ⟨h3lo, h3hi, h3aligned⟩

/-- With grid-aligned bounds and a grid-aligned time inside the exclusive
window, the raw `floor(secs·fps)+1` frame already lies in
`[floor(start·fps)+1, floor(end·fps)]`, so neither clamp of
`secondsToFrame` fires and the last valid frame is `floor(end·fps)`. -/
theorem secondsToFrame_spec {num den : ℚ} (hnum : 0 < num) (hden : 0 < den)
    (secs lo hi : ℚ) (hlo : GridAligned num den lo)
    (hhi : GridAligned num den hi) (hsecs : GridAligned num den secs)
    (h1 : lo ≤ secs) (h2 : secs ≤ hi - 1 / (num / den)) :
    secondsToFrame num den secs (lo, hi) = ⌊secs * (num / den)⌋ + 1 ∧
      ⌊lo * (num / den)⌋ + 1 ≤ secondsToFrame num den secs (lo, hi) ∧
      secondsToFrame num den secs (lo, hi) ≤ ⌊hi * (num / den)⌋ := by
  have hnum' : num ≠ 0 := ne_of_gt hnum
  have hden' : den ≠ 0 := ne_of_gt hden
  have hF : (0:ℚ) < num / den := by positivity
  have hloInt := int_mul_of_gridAligned hnum' hden' hlo
  have hhiInt := int_mul_of_gridAligned hnum' hden' hhi
  have hsecsInt := int_mul_of_gridAligned hnum' hden' hsecs
  have hfloorLo : ⌊lo * (num / den)⌋ = round (lo * num / den) := by
    rw [hloInt]; exact Int.floor_intCast _
  have hfloorHi : ⌊hi * (num / den)⌋ = round (hi * num / den) := by
    rw [hhiInt]; exact Int.floor_intCast _
  have hfloorSecs : ⌊secs * (num / den)⌋ = round (secs * num / den) := by
    rw [hsecsInt]; exact Int.floor_intCast _
  have hle1 : ⌊lo * (num / den)⌋ ≤ ⌊secs * (num / den)⌋ :=
    Int.floor_le_floor (mul_le_mul_of_nonneg_right h1 (le_of_lt hF))
  have hsecsF : secs * (num / den) ≤ hi * (num / den) - 1 := by
    have h2' := mul_le_mul_of_nonneg_right h2 (le_of_lt hF)
    have hexp : (hi - 1 / (num / den)) * (num / den) =
        hi * (num / den) - 1 := by
      field_simp
    rw [hexp] at h2'
    exact h2'
  have hle2 : ⌊secs * (num / den)⌋ + 1 ≤ ⌊hi * (num / den)⌋ := by
    rw [hfloorSecs, hfloorHi]
    have hz : (round (secs * num / den) : ℚ) + 1 ≤
        (round (hi * num / den) : ℚ) := by
      rw [← hsecsInt, ← hhiInt]; linarith
    exact_mod_cast hz
  unfold secondsToFrame
  simp only
  rw [if_neg (by omega), if_neg (by omega)]
  exact ⟨rfl, by omega, by omega⟩

/-- C4: the keyframe directive clamps the proposed time to
`[clip.start, clip.end − 1/F]` (exclusive right edge) and snaps it to the
FPS grid; the committed frame lies in `[floor(start·F)+1, floor(end·F)]`;
on drag stop a change is committed via `update_clip_data` with
`allow_keyframes=false` and `force_json_diff=true` exactly when the frame
differs; for clip `{start=0, end=4}` at fps 24/1, dragging the keyframe at
frame 25 to the pixel for 2.0 s commits frame 49. -/
theorem keyframe_drag_snap_clamp_commit :
    (∀ (num den : ℚ) (secs lo hi : ℚ), 0 < num → 0 < den →
        GridAligned num den lo → GridAligned num den hi →
        lo ≤ hi - 1 / (num / den) →
        lo ≤ snapClampExclusive num den secs (lo, hi) ∧
          snapClampExclusive num den secs (lo, hi) ≤ hi - 1 / (num / den) ∧
          GridAligned num den (snapClampExclusive num den secs (lo, hi)) ∧
          ⌊lo * (num / den)⌋ + 1 ≤
            secondsToFrame num den (snapClampExclusive num den secs (lo, hi))
              (lo, hi) ∧
          secondsToFrame num den (snapClampExclusive num den secs (lo, hi))
              (lo, hi) ≤ ⌊hi * (num / den)⌋) ∧
    keyframeDragStop 24 1 50 ⟨0, 0, some 4, none⟩ 100 25 =
      some ⟨49, false, true⟩ := by
  constructor
  · intro num den secs lo hi hnum hden hlo hhi hwin
    obtain ⟨ha, hb, hc⟩ := snapClampExclusive_spec hnum hden secs lo hi hlo hhi hwin
    obtain ⟨_, hd, he⟩ := secondsToFrame_spec hnum hden _ lo hi hlo hhi hc ha hb
    exact ⟨ha, hb, hc, hd, he⟩
  · norm_num [keyframeDragStop, getBounds, snapClampExclusive,
      exclusiveMaxSec, secondsToFrame, snapToFPSGridTime, pixelToTime,
      round_eq, Int.floor_intCast]

/-- Witness for `keyframe_drag_snap_clamp_commit`: the clamp instantiated
at the boundary-scenario bounds `[0, 4]`, fps 24/1, proposed time 2.0 s. -/
theorem keyframe_drag_snap_clamp_witness :
    (0:ℚ) ≤ snapClampExclusive 24 1 2 (0, 4) ∧
      snapClampExclusive 24 1 2 (0, 4) ≤ 4 - 1 / ((24:ℚ) / 1) := by
  have h := keyframe_drag_snap_clamp_commit.1 24 1 2 0 4 (by norm_num)
    (by norm_num)
    (by unfold GridAligned snapToFPSGridTime; norm_num)
    (by unfold GridAligned snapToFPSGridTime; norm_num [round_eq])
    (by norm_num)
  exact ⟨h.1, h.2.1⟩

/-! ## §4.5.3 Retime preview mapping

Two code paths map a keyframe's seconds during a retime preview: the
enumerator `mapSecondsToDisplay` inside `$scope.getKeyframes`
(chat.js:983-1014) and the DOM renderer `renderKeyframePreview`
(clip.js:208-291).  The preview container is populated by
`startKeyframePreview` (clip.js:302-331).  All `toNumber(field, fallback)`
reads are embedded as present `ℚ` fields. -/

/-- The `ui.keyframe_preview` container (clip.js:153-175, 302-331). -/
structure KPreview where
  mode : String
  originalStart : ℚ
  originalEnd : ℚ
  displayStart : ℚ
  displayEnd : ℚ
  projectedStart : ℚ
  projectedEnd : ℚ
  deriving Repr

/-- Embeds `previewDisplayStart` after the swap normalisation in `getKeyframes`
(chat.js:985-990). -/
def previewDisplayStart (pv : KPreview) : ℚ :=
  if pv.displayEnd < pv.displayStart then pv.displayEnd else pv.displayStart

/-- Embeds `previewDisplayEnd` after the swap normalisation (chat.js:985-990). -/
def previewDisplayEnd (pv : KPreview) : ℚ :=
  if pv.displayEnd < pv.displayStart then pv.displayStart else pv.displayEnd

/-- Embeds `previewProjectedEnd` raised to `previewProjectedStart`
(chat.js:992-996). -/
def previewProjectedEnd (pv : KPreview) : ℚ :=
  if pv.projectedEnd < pv.projectedStart then pv.projectedStart else pv.projectedEnd

/-- Embeds `displayDuration = Math.max(previewDisplayEnd − previewDisplayStart, 0)`
(chat.js:998). -/
def displayDuration (pv : KPreview) : ℚ :=
  max (previewDisplayEnd pv - previewDisplayStart pv) 0

/-- Embeds `projectedDuration = Math.max(previewProjectedEnd − previewProjectedStart, 0)`
(chat.js:999). -/
def projectedDuration (pv : KPreview) : ℚ :=
  max (previewProjectedEnd pv - pv.projectedStart) 0

/-- Embeds `mapSecondsToDisplay(seconds)` in `getKeyframes` (chat.js:1001-1014);
the `isFinite(normalized)` guard is vacuous on `ℚ`. -/
def mapSecondsToDisplay (pv : KPreview) (seconds : ℚ) : ℚ :=
  if pv.mode ≠ "retime" then seconds
  else if ¬ 0 < projectedDuration pv ∨ ¬ 0 < displayDuration pv then
    previewDisplayStart pv
  else
    previewDisplayStart pv +
      ((seconds - pv.projectedStart) / projectedDuration pv) * displayDuration pv

/-- Embeds `displayEnd` raised to `displayStart` in `renderKeyframePreview`
(clip.js:246-250). -/
def renderDisplayEnd (pv : KPreview) : ℚ :=
  if pv.displayEnd < pv.displayStart then pv.displayStart else pv.displayEnd

/-- Embeds `displayDuration` in `renderKeyframePreview` (clip.js:251). -/
def renderDisplayDuration (pv : KPreview) : ℚ :=
  max (renderDisplayEnd pv - pv.displayStart) 0

/-- Embeds `originalEnd` raised to `originalStart` in `renderKeyframePreview`
(clip.js:253-257). -/
def renderOriginalEnd (pv : KPreview) : ℚ :=
  if pv.originalEnd < pv.originalStart then pv.originalStart else pv.originalEnd

/-- Embeds `originalDuration` in `renderKeyframePreview` (clip.js:258). -/
def renderOriginalDuration (pv : KPreview) : ℚ :=
  max (renderOriginalEnd pv - pv.originalStart) 0

/-- The `mappedSeconds` computed per point by `renderKeyframePreview`
(clip.js:260-285): the retime stretch applies only when
`hasRetimeMapping` holds (`originalDuration > 0` and
`displayDuration > 0`); otherwise the keyframe keeps its raw seconds. -/
def renderMappedSeconds (pv : KPreview) (frameSeconds : ℚ) : ℚ :=
  if pv.mode = "retime" ∧ 0 < renderOriginalDuration pv ∧
      0 < renderDisplayDuration pv then
    pv.displayStart +
      ((frameSeconds - pv.originalStart) / renderOriginalDuration pv) *
        renderDisplayDuration pv
  else frameSeconds

/-- Embeds `startKeyframePreview(mode)` (clip.js:302-331): snap the current and
(for retime) the captured original window; `projected` is the display
window for trim and the original window otherwise. -/
def startKeyframePreview (num den : ℚ) (mode : String)
    (clipStart clipEnd origStart origEnd : ℚ) : KPreview :=
  let cs := snapToFPSGridTime num den clipStart
  let ce := snapToFPSGridTime num den clipEnd
  let os := if mode = "retime" then snapToFPSGridTime num den origStart else cs
  let oe := if mode = "retime" then snapToFPSGridTime num den origEnd else ce
  { mode := mode, originalStart := os, originalEnd := oe,
    displayStart := cs, displayEnd := ce,
    projectedStart := if mode = "trim" then cs else os,
    projectedEnd := if mode = "trim" then ce else oe }

/-- The retime preview of a clip whose original window degenerated to
`[0, 0]` while the display window is `[1, 2]`. -/
def degeneratePreview : KPreview := startKeyframePreview 24 1 "retime" 1 2 0 0

/-- C5 counterexample for the claim as stated: in `degeneratePreview` the
projected duration is zero, so the claim says every mapped second
collapses to `displayStart = 1`; the enumerator complies, but the DOM
renderer (`renderKeyframePreview`) maps a keyframe at 5 s to 5 s — its
degenerate branch keeps raw seconds instead of collapsing. -/
theorem retime_preview_render_counterexample :
    projectedDuration degeneratePreview = 0 ∧
      previewDisplayStart degeneratePreview = 1 ∧
      mapSecondsToDisplay degeneratePreview 5 = 1 ∧
      renderMappedSeconds degeneratePreview 5 = 5 ∧ (5:ℚ) ≠ 1 := by
  have hrt : ¬(("retime":String) = "trim") := by decide
  have hrr : (("retime":String) = "retime") := rfl
  norm_num [degeneratePreview, startKeyframePreview, snapToFPSGridTime,
    round_eq, projectedDuration, previewProjectedEnd, previewDisplayStart,
    previewDisplayEnd, displayDuration, mapSecondsToDisplay,
    renderMappedSeconds, renderOriginalDuration, renderOriginalEnd,
    renderDisplayDuration, renderDisplayEnd, hrt, hrr]

/-- C5 (amended): during a retime preview the keyframe enumerator maps
`originalSeconds` to
`displayStart + ((originalSeconds − projectedStart)/projectedDuration) · displayDuration`,
collapsing to `displayStart` whenever `projectedDuration` or
`displayDuration` is zero; a retime preview opened by
`startKeyframePreview` has `projectedStart = originalStart` and
`projectedEnd = originalEnd`, under which the DOM renderer computes the
same mapping when both durations are positive — but when either duration
is zero the renderer keeps each keyframe's raw seconds instead of
collapsing to `displayStart`. -/
theorem retime_preview_mapping :
    (∀ (pv : KPreview) (s : ℚ), pv.mode = "retime" →
        0 < projectedDuration pv → 0 < displayDuration pv →
        mapSecondsToDisplay pv s =
          previewDisplayStart pv +
            ((s - pv.projectedStart) / projectedDuration pv) *
              displayDuration pv) ∧
    (∀ (pv : KPreview) (s : ℚ), pv.mode = "retime" →
        projectedDuration pv = 0 ∨ displayDuration pv = 0 →
        mapSecondsToDisplay pv s = previewDisplayStart pv) ∧
    (∀ (num den cs ce os oe : ℚ),
        (startKeyframePreview num den "retime" cs ce os oe).projectedStart =
            (startKeyframePreview num den "retime" cs ce os oe).originalStart ∧
          (startKeyframePreview num den "retime" cs ce os oe).projectedEnd =
            (startKeyframePreview num den "retime" cs ce os oe).originalEnd) ∧
    (∀ (pv : KPreview) (fs : ℚ), pv.mode = "retime" →
        pv.displayStart ≤ pv.displayEnd →
        pv.originalStart < pv.originalEnd →
        pv.displayStart < pv.displayEnd →
        pv.projectedStart = pv.originalStart →
        pv.projectedEnd = pv.originalEnd →
        renderMappedSeconds pv fs = mapSecondsToDisplay pv fs) ∧
    (∀ (pv : KPreview) (fs : ℚ),
        renderOriginalDuration pv = 0 ∨ renderDisplayDuration pv = 0 →
        renderMappedSeconds pv fs = fs) := by
  refine ⟨?_, ?_, ?_, ?_, ?_⟩
  · intro pv s hm hp hd
    rw [mapSecondsToDisplay, if_neg (by simp [hm]),
      if_neg (by push_neg; exact ⟨hp, hd⟩)]
  · intro pv s hm hzero
    rw [mapSecondsToDisplay, if_neg (by simp [hm]), if_pos]
    rcases hzero with h | h
    · exact Or.inl (by rw [h]; exact lt_irrefl 0)
    · exact Or.inr (by rw [h]; exact lt_irrefl 0)
  · intro num den cs ce os oe
    constructor <;>
      simp [startKeyframePreview]
  · intro pv fs hm hds hoo hdd hps hpe
    have ho' : renderOriginalEnd pv = pv.originalEnd := by
      rw [renderOriginalEnd, if_neg (not_lt.mpr (le_of_lt hoo))]
    have hd' : renderDisplayEnd pv = pv.displayEnd := by
      rw [renderDisplayEnd, if_neg (not_lt.mpr hds)]
    have hod : renderOriginalDuration pv = pv.originalEnd - pv.originalStart := by
      rw [renderOriginalDuration, ho', max_eq_left (by linarith)]
    have hdd' : renderDisplayDuration pv = pv.displayEnd - pv.displayStart := by
      rw [renderDisplayDuration, hd', max_eq_left (by linarith)]
    have hpe' : previewProjectedEnd pv = pv.originalEnd := by
      rw [previewProjectedEnd, hps, hpe, if_neg (not_lt.mpr (le_of_lt hoo))]
    have hpd : projectedDuration pv = pv.originalEnd - pv.originalStart := by
      rw [projectedDuration, hpe', hps, max_eq_left (by linarith)]
    have hpds : previewDisplayStart pv = pv.displayStart := by
      rw [previewDisplayStart, if_neg (not_lt.mpr hds)]
    have hpde : previewDisplayEnd pv = pv.displayEnd := by
      rw [previewDisplayEnd, if_neg (not_lt.mpr hds)]
    have hdd2 : displayDuration pv = pv.displayEnd - pv.displayStart := by
      rw [displayDuration, hpde, hpds, max_eq_left (by linarith)]
    have hro : 0 < renderOriginalDuration pv := by rw [hod]; linarith
    have hrd : 0 < renderDisplayDuration pv := by rw [hdd']; linarith
    have hmm : ¬(pv.mode ≠ "retime") := by simp [hm]
    have hcond : ¬(¬ 0 < projectedDuration pv ∨ ¬ 0 < displayDuration pv) := by
      push_neg
      refine ⟨by rw [hpd]; linarith, by rw [hdd2]; linarith⟩
    rw [renderMappedSeconds, if_pos ⟨hm, hro, hrd⟩,
      mapSecondsToDisplay, if_neg hmm, if_neg hcond]
    rw [hod, hdd', hpd, hdd2, hpds, hps]
  · intro pv fs hzero
    rw [renderMappedSeconds, if_neg]
    rintro ⟨hm, hp, hd⟩
    rcases hzero with h | h
    · rw [h] at hp; exact lt_irrefl 0 hp
    · rw [h] at hd; exact lt_irrefl 0 hd

/-- Witness for `retime_preview_mapping`: at a retime preview stretching
original window `[0, 2]` onto display window `[0, 4]`, a keyframe at 1 s
maps to 2 s. -/
theorem retime_preview_mapping_witness :
    mapSecondsToDisplay ⟨"retime", 0, 2, 0, 4, 0, 2⟩ 1 = 0 + (1 - 0) / 2 * 4 := by
  have h := retime_preview_mapping.1 ⟨"retime", 0, 2, 0, 4, 0, 2⟩ 1 rfl
    (by norm_num [projectedDuration, previewProjectedEnd])
    (by norm_num [displayDuration, previewDisplayEnd, previewDisplayStart])
  rw [h]
  norm_num [previewDisplayStart, projectedDuration, previewProjectedEnd,
    displayDuration, previewDisplayEnd]

/-! ## §4.10 Audio waveform resampling (`resampleWaveform`, clip.js:60-89) -/

/-- One output sample of `resampleWaveform` (clip.js:76-87).  On `ℚ` the
`isFinite(value)` repairs are vacuous; `Math.floor(sourcePos)` is `⌊·⌋`
(`sourcePos ≥ 0` in every reachable call, so `Int.toNat` is exact). -/
def resampleSample (data : List ℚ) (newLength i : ℕ) : ℚ :=
  let maxSourceIndex : ℕ := data.length - 1
  let t : ℚ := if newLength = 1 then 0 else (i : ℚ) / ((newLength : ℚ) - 1)
  let sourcePos : ℚ := t * (maxSourceIndex : ℚ)
  let idx0 : ℕ := (⌊sourcePos⌋).toNat
  let idx1 : ℕ := min maxSourceIndex (idx0 + 1)
  let frac : ℚ := sourcePos - (⌊sourcePos⌋ : ℚ)
  data.getD idx0 0 + (data.getD idx1 0 - data.getD idx0 0) * frac

/-- Embeds `resampleWaveform(data, originalDuration, newDuration)`
(clip.js:60-89): `none` embeds the JS `null` returns. -/
def resampleWaveform (data : List ℚ) (originalDuration newDuration : ℚ) :
    Option (List ℚ) :=
  if data.length = 0 then none
  else if ¬ (0 < originalDuration ∧ 0 < newDuration) then none
  else if data.length = 1 then some [data.getD 0 0]
  else
    let newLength :=
      (max 1 (round ((data.length : ℚ) * (newDuration / originalDuration)))).toNat
    if newLength = data.length then some data
    else some ((List.range newLength).map fun i => resampleSample data newLength i)

theorem getD_map_range (n i : ℕ) (h : i < n) (f : ℕ → ℚ) :
    ((List.range n).map f).getD i 0 = f i := by
  rw [List.getD_eq_getElem?_getD, List.getElem?_map, List.getElem?_range h]
  rfl

theorem interp_between (v0 v1 frac : ℚ) (h0 : 0 ≤ frac) (h1 : frac ≤ 1) :
    min v0 v1 ≤ v0 + (v1 - v0) * frac ∧ v0 + (v1 - v0) * frac ≤ max v0 v1 := by
  rcases le_total v0 v1 with h | h
  · rw [min_eq_left h, max_eq_right h]
    constructor <;> nlinarith
  · rw [min_eq_right h, max_eq_left h]
    constructor <;> nlinarith

/-- The source index the claim's example refers to:
`⌊i·(dataLen−1)/(newLength−1)⌋`, written exactly as `resampleSample`
computes `Math.floor(sourcePos)`. -/
def resampleIndex (dataLen newLength i : ℕ) : ℕ :=
  (⌊(if newLength = 1 then 0 else (i : ℚ) / ((newLength : ℚ) - 1)) *
      ((dataLen - 1 : ℕ) : ℚ)⌋).toNat

theorem resampleSample_spec (data : List ℚ) (newLength i : ℕ)
    (hdata : 1 ≤ data.length) (hi : i < newLength) :
    ∃ j k : ℕ, j < data.length ∧ k < data.length ∧ (k = j ∨ k = j + 1) ∧
      min (data.getD j 0) (data.getD k 0) ≤ resampleSample data newLength i ∧
      resampleSample data newLength i ≤
        max (data.getD j 0) (data.getD k 0) ∧
      j = resampleIndex data.length newLength i := by
  unfold resampleSample resampleIndex
  set t : ℚ := if newLength = 1 then 0 else (i : ℚ) / ((newLength : ℚ) - 1)
    with ht
  set sourcePos : ℚ := t * ((data.length - 1 : ℕ) : ℚ) with hsp
  have ht0 : 0 ≤ t := by
    rw [ht]; split_ifs with h
    · exact le_refl 0
    · have h2 : 2 ≤ newLength := by omega
      have : (2:ℚ) ≤ (newLength : ℚ) := by exact_mod_cast h2
      apply div_nonneg (Nat.cast_nonneg i)
      linarith
  have ht1 : t ≤ 1 := by
    rw [ht]; split_ifs with h
    · exact zero_le_one
    · have h2 : 2 ≤ newLength := by omega
      have hcast : (2:ℚ) ≤ (newLength : ℚ) := by exact_mod_cast h2
      rw [div_le_one (by linarith)]
      have : (i:ℚ) ≤ (newLength : ℚ) - 1 := by
        have : i + 1 ≤ newLength := hi
        have := (Nat.cast_le (α := ℚ)).mpr this
        push_cast at this
        linarith
      exact this
  have hsp0 : 0 ≤ sourcePos := by
    rw [hsp]; exact mul_nonneg ht0 (Nat.cast_nonneg _)
  have hspmax : sourcePos ≤ ((data.length - 1 : ℕ) : ℚ) := by
    rw [hsp]
    calc t * ((data.length - 1 : ℕ) : ℚ)
        ≤ 1 * ((data.length - 1 : ℕ) : ℚ) :=
          mul_le_mul_of_nonneg_right ht1 (Nat.cast_nonneg _)
      _ = ((data.length - 1 : ℕ) : ℚ) := one_mul _
  have hfloor0 : 0 ≤ ⌊sourcePos⌋ := Int.floor_nonneg.mpr hsp0
  have hfloorle : ⌊sourcePos⌋ ≤ (data.length - 1 : ℕ) := by
    calc ⌊sourcePos⌋ ≤ ⌊((data.length - 1 : ℕ) : ℚ)⌋ :=
          Int.floor_le_floor hspmax
      _ = (data.length - 1 : ℕ) := Int.floor_natCast _
  have hjle : (⌊sourcePos⌋).toNat ≤ data.length - 1 := by
    omega
  have hjlt : (⌊sourcePos⌋).toNat < data.length := by omega
  have hklt : min (data.length - 1) ((⌊sourcePos⌋).toNat + 1) < data.length := by
    omega
  have hkor : min (data.length - 1) ((⌊sourcePos⌋).toNat + 1) =
      (⌊sourcePos⌋).toNat ∨
      min (data.length - 1) ((⌊sourcePos⌋).toNat + 1) =
        (⌊sourcePos⌋).toNat + 1 := by
    omega
  have hfrac0 : 0 ≤ sourcePos - (⌊sourcePos⌋ : ℚ) := by
    linarith [Int.floor_le sourcePos]
  have hfrac1 : sourcePos - (⌊sourcePos⌋ : ℚ) ≤ 1 := by
    linarith [Int.lt_floor_add_one sourcePos]
  obtain ⟨hmin, hmax⟩ := interp_between
    (data.getD ((⌊sourcePos⌋).toNat) 0)
    (data.getD (min (data.length - 1) ((⌊sourcePos⌋).toNat + 1)) 0)
    (sourcePos - (⌊sourcePos⌋ : ℚ)) hfrac0 hfrac1
  exact ⟨(⌊sourcePos⌋).toNat,
    min (data.length - 1) ((⌊sourcePos⌋).toNat + 1),
    hjlt, hklt, hkor, hmin, hmax, rfl⟩

theorem resampleWaveform_some {data : List ℚ} {od nd : ℚ} (hne : data ≠ [])
    (hod : 0 < od) (hnd : 0 < nd) :
    ∃ r, resampleWaveform data od nd = some r ∧
      (2 ≤ data.length →
        r.length = (max 1 (round ((data.length : ℚ) * (nd / od)))).toNat) ∧
      (data.length = 1 → r = [data.getD 0 0]) := by
  have hlen : data.length ≠ 0 := by
    simpa [List.length_eq_zero] using hne
  have hdur : ¬ ¬ (0 < od ∧ 0 < nd) := not_not_intro ⟨hod, hnd⟩
  by_cases h1 : data.length = 1
  · refine ⟨[data.getD 0 0], ?_, fun h2 => by omega, fun _ => rfl⟩
    simp only [resampleWaveform]
    rw [if_neg hlen, if_neg hdur, if_pos h1]
  · by_cases heq :
      ((max 1 (round ((data.length : ℚ) * (nd / od)))).toNat) = data.length
    · refine ⟨data, ?_, fun _ => heq.symm, fun h => absurd h h1⟩
      simp only [resampleWaveform]
      rw [if_neg hlen, if_neg hdur, if_neg h1, if_pos heq]
    · refine ⟨(List.range
          ((max 1 (round ((data.length : ℚ) * (nd / od)))).toNat)).map
          (fun i => resampleSample data
            ((max 1 (round ((data.length : ℚ) * (nd / od)))).toNat) i),
        ?_, fun _ => ?_, fun h => absurd h h1⟩
      · simp only [resampleWaveform]
        rw [if_neg hlen, if_neg hdur, if_neg h1, if_neg heq]
      · simp

theorem resampleWaveform_between {data : List ℚ} {od nd : ℚ} {r : List ℚ}
    (h : resampleWaveform data od nd = some r) :
    ∀ i, i < r.length →
      ∃ j k : ℕ, j < data.length ∧ k < data.length ∧ (k = j ∨ k = j + 1) ∧
        min (data.getD j 0) (data.getD k 0) ≤ r.getD i 0 ∧
        r.getD i 0 ≤ max (data.getD j 0) (data.getD k 0) ∧
        j = resampleIndex data.length r.length i := by
  intro i hi
  by_cases hlen : data.length = 0
  · simp only [resampleWaveform] at h
    rw [if_pos hlen] at h
    exact Option.noConfusion h
  by_cases hdur : ¬ (0 < od ∧ 0 < nd)
  · simp only [resampleWaveform] at h
    rw [if_neg hlen, if_pos hdur] at h
    exact Option.noConfusion h
  by_cases h1 : data.length = 1
  · simp only [resampleWaveform] at h
    rw [if_neg hlen, if_neg hdur, if_pos h1] at h
    obtain rfl : [data.getD 0 0] = r := (Option.some.injEq _ _).mp h
    have hi0 : i = 0 := by simpa using hi
    subst hi0
    refine ⟨0, 0, by omega, by omega, Or.inl rfl, by simp, by simp, ?_⟩
    simp [resampleIndex]
  · simp only [resampleWaveform] at h
    rw [if_neg hlen, if_neg hdur, if_neg h1] at h
    by_cases heq :
      ((max 1 (round ((data.length : ℚ) * (nd / od)))).toNat) = data.length
    · rw [if_pos heq] at h
      obtain rfl : data = r := (Option.some.injEq _ _).mp h
      have hlen2 : 2 ≤ data.length := by omega
      refine ⟨i, i, hi, hi, Or.inl rfl, le_of_eq (by simp), le_of_eq (by simp),
        ?_⟩
      unfold resampleIndex
      have hne1 : data.length ≠ 1 := h1
      rw [if_neg hne1]
      have hcast : ((data.length - 1 : ℕ) : ℚ) = (data.length : ℚ) - 1 := by
        have : 1 ≤ data.length := by omega
        push_cast [Nat.cast_sub this]
        ring
      have hdenne : ((data.length : ℚ) - 1) ≠ 0 := by
        have : (2:ℚ) ≤ (data.length : ℚ) := by exact_mod_cast hlen2
        linarith
      rw [hcast, div_mul_cancel₀ _ hdenne]
      simp
    · rw [if_neg heq] at h
      have hr : r = (List.range
          ((max 1 (round ((data.length : ℚ) * (nd / od)))).toNat)).map
          (fun j => resampleSample data
            ((max 1 (round ((data.length : ℚ) * (nd / od)))).toNat) j) :=
        ((Option.some.injEq _ _).mp h).symm
      have hrlen : r.length =
          (max 1 (round ((data.length : ℚ) * (nd / od)))).toNat := by
        rw [hr]; simp
      have hi' : i < (max 1 (round ((data.length : ℚ) * (nd / od)))).toNat := by
        omega
      obtain ⟨j, k, hj, hk, hor, hmin, hmax, hjeq⟩ :=
        resampleSample_spec data _ i (by omega) hi'
      refine ⟨j, k, hj, hk, hor, ?_, ?_, ?_⟩
      · rw [hr, getD_map_range _ _ hi']
        exact hmin
      · rw [hr, getD_map_range _ _ hi']
        exact hmax
      · rw [hrlen]
        exact hjeq

/-- C9 counterexample for the claim as stated: the output length is
`max(1, round(len·new/old))`, not `round(len·new/old)`: two samples
resampled from duration 4 to duration 0.5 give 1 sample although the
claim's formula says 0; a single-sample array is returned as-is, although
the claim's formula says `round(1·2/1) = 2` samples. -/
theorem resample_length_counterexample :
    resampleWaveform [1, 2] 4 (1/2) = some [1] ∧
      round ((2:ℚ) * ((1/2) / 4)) = 0 ∧ (1:ℕ) ≠ 0 ∧
      resampleWaveform [5] 1 2 = some [5] ∧
      round ((1:ℚ) * ((2:ℚ) / 1)) = 2 ∧ (1:ℕ) ≠ 2 := by
  refine ⟨?_, by norm_num [round_eq], by norm_num, ?_, by norm_num [round_eq],
    by norm_num⟩ <;>
    norm_num [resampleWaveform, resampleSample, round_eq]

/-- C9 (amended): for a non-empty sample array and positive durations,
`resampleWaveform` succeeds; when the array has at least 2 samples the
output length is `max(1, round(originalLength · newDuration /
originalDuration))` (a single-sample array is returned as a one-sample
copy); every output sample `i` lies between the two adjacent source
samples at `j = ⌊i·(originalLength−1)/(newLength−1)⌋` and
`min(originalLength−1, j+1)` — the linear-interpolation property behind
the spec's "sample `i` ≈ `samples[⌊i·(799/399)⌋]`"; resampling 800
samples from duration 4.0 to 2.0 yields 400 samples. -/
theorem resample_waveform_semantics :
    (∀ (data : List ℚ) (od nd : ℚ), data ≠ [] → 0 < od → 0 < nd →
        2 ≤ data.length →
        ∃ r, resampleWaveform data od nd = some r ∧
          r.length = (max 1 (round ((data.length : ℚ) * (nd / od)))).toNat) ∧
    (∀ (data : List ℚ) (od nd : ℚ), data ≠ [] → 0 < od → 0 < nd →
        data.length = 1 →
        resampleWaveform data od nd = some [data.getD 0 0]) ∧
    (∀ (data : List ℚ) (od nd : ℚ) (r : List ℚ),
        resampleWaveform data od nd = some r →
        ∀ i, i < r.length →
          ∃ j k : ℕ, j < data.length ∧ k < data.length ∧
            (k = j ∨ k = j + 1) ∧
            min (data.getD j 0) (data.getD k 0) ≤ r.getD i 0 ∧
            r.getD i 0 ≤ max (data.getD j 0) (data.getD k 0) ∧
            j = resampleIndex data.length r.length i) ∧
    (∃ r, resampleWaveform (List.replicate 800 (0:ℚ)) 4 2 = some r ∧
        r.length = 400) := by
  refine ⟨?_, ?_, ?_, ?_⟩
  · intro data od nd hne hod hnd h2
    obtain ⟨r, hr, hlen, _⟩ := resampleWaveform_some hne hod hnd
    exact ⟨r, hr, hlen h2⟩
  · intro data od nd hne hod hnd h1
    obtain ⟨r, hr, _, hsingle⟩ := resampleWaveform_some hne hod hnd
    rw [hr, hsingle h1]
  · intro data od nd r h i hi
    exact resampleWaveform_between h i hi
  · have hL : (List.replicate 800 (0:ℚ)).length = 800 := List.length_replicate _ _
    obtain ⟨r, hr, hlen, _⟩ := @resampleWaveform_some
      (List.replicate 800 (0:ℚ)) 4 2
      (by intro hnil; rw [hnil] at hL; exact absurd hL (by norm_num))
      (by norm_num) (by norm_num)
    refine ⟨r, hr, ?_⟩
    rw [hlen (by rw [hL]; norm_num), hL]
    norm_num [round_eq]
    rfl

/-- Witness for `resample_waveform_semantics`: three samples resampled
from duration 4 to duration 2 give `max(1, round(3·(2/4))) = 2` samples. -/
theorem resample_waveform_semantics_witness :
    ∃ r, resampleWaveform [1, 2, 4] 4 2 = some r ∧ r.length = 2 := by
  obtain ⟨r, hr, hlen⟩ := resample_waveform_semantics.1 [1, 2, 4] 4 2
    (by simp) (by norm_num) (by norm_num) (by simp)
  refine ⟨r, hr, ?_⟩
  rw [hlen]
  norm_num [round_eq]
  rfl

/-! ## §4.12 Playhead (`$scope.movePlayhead`, chat.js:836-845) -/

/-- Embeds `$scope.movePlayhead(position_seconds)` (chat.js:836-845): the stored
`project.playhead_position` is `snapToFPSGridTime(position_seconds)` (the
DOM/ruler updates are display-only). -/
def movePlayhead (num den t : ℚ) : ℚ := snapToFPSGridTime num den t

/-- C8 counterexample for the claim as stated: at fps 24/1,
`movePlayhead(−1)` stores `−1`, which is negative — neither `movePlayhead`
nor `snapToFPSGridTime` clamps at 0. -/
theorem movePlayhead_negative_counterexample :
    movePlayhead 24 1 (-1) = -1 ∧ ¬ ((0:ℚ) ≤ -1) := by
  norm_num [movePlayhead, snapToFPSGridTime, round_eq]

/-- C8 (amended): for every non-negative input time `t` (with a valid
positive fps), the stored playhead position is ≥ 0 and equal to its
FPS-grid-snapped value; a negative input is stored as its (negative)
snapped value. -/
theorem movePlayhead_nonneg_snapped :
    (∀ (num den t : ℚ), 0 < num → 0 < den → 0 ≤ t →
        0 ≤ movePlayhead num den t) ∧
    (∀ (num den t : ℚ), num ≠ 0 → den ≠ 0 →
        snapToFPSGridTime num den (movePlayhead num den t) =
          movePlayhead num den t) := by
  constructor
  · intro num den t hnum hden ht
    unfold movePlayhead snapToFPSGridTime
    have harg : (0:ℚ) ≤ t * num / den := by positivity
    have hround : (0:ℤ) ≤ round (t * num / den) := by
      have := round_monotone harg
      simpa using this
    have : (0:ℚ) ≤ (round (t * num / den) : ℚ) := by exact_mod_cast hround
    positivity
  · intro num den t hnum hden
    exact snap_idem hnum hden

/-- Witness for `movePlayhead_nonneg_snapped`: at fps 24/1 and `t = 7/3`
the stored playhead is non-negative and grid-snapped. -/
theorem movePlayhead_nonneg_snapped_witness :
    0 ≤ movePlayhead 24 1 (7/3) ∧
      snapToFPSGridTime 24 1 (movePlayhead 24 1 (7/3)) =
        movePlayhead 24 1 (7/3) := by
  exact ⟨movePlayhead_nonneg_snapped.1 24 1 (7/3) (by norm_num) (by norm_num)
      (by norm_num),
    movePlayhead_nonneg_snapped.2 24 1 (7/3) (by norm_num) (by norm_num)⟩

/-! ## §4.2 Snap engine (`$scope.getNearbyPosition`, chat.js:2449-2634)

The project state read by the function.  `markers` carries only the
positions (the function reads nothing else); `keyframeTargets` is the list
of pixel positions collected from `getKeyframes` over selected entities
(chat.js:2474-2518), taken as an input here; `ignore_ids` membership
embeds `ignore_ids.hasOwnProperty(id)`.  The entries pushed into `diffs`
carry extra `id`/`side` fields for clips in the source, which the
winner-selection loop never reads, so a diff is embedded as its
`(diff, position)` pair. -/
structure SnapProject where
  clips : List ClipT
  effects : List TranT
  markers : List ℚ
  playhead_position : ℚ
  duration : ℚ
  deriving Repr

/-- One entry of the `diffs` array (chat.js:2536-2610). -/
structure SnapDiff where
  diff : ℚ
  position : ℚ
  deriving Repr

/-- The entries pushed into `diffs` for one candidate pixel position, in
source order: clip edges (left before right, skipping `ignore_ids`),
transition edges, markers, the playhead (unless `ruler`/`playhead` is
ignored), the unconditional end-of-timeline entry, and — with
`includeKeyframes` — the visible keyframe targets (chat.js:2520-2610). -/
def diffsForPosition (proj : SnapProject) (pps threshold : ℚ)
    (ignore_ids : List String) (includeKeyframes : Bool)
    (keyframeTargets : List ℚ) (position : ℚ) : List SnapDiff :=
  let clipDiffs := proj.clips.flatMap fun clip =>
    if ignore_ids.contains clip.id then []
    else
      let lp := clip.position * pps
      let rp := (clip.position + (clip.stop - clip.start)) * pps
      (if |position - lp| ≤ threshold then [⟨position - lp, lp⟩] else []) ++
        (if |position - rp| ≤ threshold then [⟨position - rp, rp⟩] else [])
  let tranDiffs := proj.effects.flatMap fun tran =>
    if ignore_ids.contains tran.id then []
    else
      let lp := tran.position * pps
      let rp := (tran.position + (tran.stop - tran.start)) * pps
      (if |position - lp| ≤ threshold then [⟨position - lp, lp⟩] else []) ++
        (if |position - rp| ≤ threshold then [⟨position - rp, rp⟩] else [])
  let markerDiffs := proj.markers.flatMap fun m =>
    let mp := m * pps
    if |position - mp| ≤ threshold then [⟨position - mp, mp⟩] else []
  let playheadDiffs :=
    if ¬ ignore_ids.contains "ruler" ∧ ¬ ignore_ids.contains "playhead" ∧
        |position - proj.playhead_position * pps| ≤ threshold then
      [⟨position - proj.playhead_position * pps, proj.playhead_position * pps⟩]
    else []
  let endDiffs := [⟨position - proj.duration * pps, proj.duration * pps⟩]
  let keyframeDiffs :=
    if includeKeyframes then
      keyframeTargets.flatMap fun kp =>
        if |position - kp| ≤ threshold then [⟨position - kp, kp⟩] else []
    else []
  clipDiffs ++ tranDiffs ++ markerDiffs ++ playheadDiffs ++ endDiffs ++
    keyframeDiffs

/-- The winner state `(smallest_diff, smallest_abs_diff,
snapping_position)`, initialised to `(900, 900, 0)` (chat.js:2451-2453). -/
structure SnapBest where
  smallest_diff : ℚ
  smallest_abs_diff : ℚ
  snapping_position : ℚ
  deriving Repr

/-- One step of the winner-selection loop (chat.js:2612-2625): a diff wins
only if it is strictly smaller than the best so far, within the threshold,
and its `position` is truthy — on `ℚ`, non-zero. -/
def scanStep (threshold : ℚ) (b : SnapBest) (d : SnapDiff) : SnapBest :=
  if |d.diff| < b.smallest_abs_diff ∧ |d.diff| ≤ threshold ∧ d.position ≠ 0 then
    ⟨d.diff, |d.diff|, d.position⟩
  else b

/-- The winner-selection loop over the whole `diffs` array. -/
def scanDiffs (threshold : ℚ) (b : SnapBest) (diffs : List SnapDiff) :
    SnapBest :=
  diffs.foldl (scanStep threshold) b

/-- Embeds `$scope.getNearbyPosition(pixel_positions, threshold, ignore_ids,
options)` (chat.js:2449-2634): `diffs` accumulates across candidate
positions and the winner loop re-scans the whole array each iteration with
persistent state; `900.0` marks "no winner" and is replaced by `0.0` on
return. -/
def getNearbyPosition (proj : SnapProject) (pps : ℚ)
    (pixel_positions : List ℚ) (threshold : ℚ) (ignore_ids : List String)
    (includeKeyframes : Bool) (keyframeTargets : List ℚ) : ℚ × ℚ :=
  let final := pixel_positions.foldl
    (fun (acc : List SnapDiff × SnapBest) pos =>
      let diffs := acc.1 ++ diffsForPosition proj pps threshold ignore_ids
        includeKeyframes keyframeTargets pos
      (diffs, scanDiffs threshold acc.2 diffs))
    ([], ⟨900, 900, 0⟩)
  let smallest_diff :=
    if final.2.smallest_diff = 900 then 0 else final.2.smallest_diff
  (smallest_diff, final.2.snapping_position)

/-- The invariant of the winner state: a zero (falsy) snapping position
can only be the untouched initial state. -/
def SnapInv (b : SnapBest) : Prop :=
  b.snapping_position = 0 → b.smallest_diff = 900

theorem scanStep_inv (threshold : ℚ) (b : SnapBest) (d : SnapDiff)
    (h : SnapInv b) : SnapInv (scanStep threshold b d) := by
  unfold scanStep
  split_ifs with hc
  · intro hp
    exact absurd hp hc.2.2
  · exact h

theorem scanDiffs_inv (threshold : ℚ) (diffs : List SnapDiff) :
    ∀ (b : SnapBest), SnapInv b → SnapInv (scanDiffs threshold b diffs) := by
  induction diffs with
  | nil => intro b h; exact h
  | cons d rest ih =>
    intro b h
    exact ih _ (scanStep_inv threshold b d h)

theorem getNearbyPosition_inv (proj : SnapProject) (pps : ℚ)
    (pixel_positions : List ℚ) (threshold : ℚ) (ignore_ids : List String)
    (includeKeyframes : Bool) (keyframeTargets : List ℚ) :
    SnapInv (pixel_positions.foldl
      (fun (acc : List SnapDiff × SnapBest) pos =>
        let diffs := acc.1 ++ diffsForPosition proj pps threshold ignore_ids
          includeKeyframes keyframeTargets pos
        (diffs, scanDiffs threshold acc.2 diffs))
      ([], ⟨900, 900, 0⟩)).2 := by
  suffices h : ∀ (ps : List ℚ) (acc : List SnapDiff × SnapBest), SnapInv acc.2 →
      SnapInv (ps.foldl
        (fun (acc : List SnapDiff × SnapBest) pos =>
          let diffs := acc.1 ++ diffsForPosition proj pps threshold ignore_ids
            includeKeyframes keyframeTargets pos
          (diffs, scanDiffs threshold acc.2 diffs)) acc).2 by
    exact h pixel_positions ([], ⟨900, 900, 0⟩) (fun _ => rfl)
  intro ps
  induction ps with
  | nil => intro acc h; exact h
  | cons p rest ih =>
    intro acc h
    exact ih _ (scanDiffs_inv threshold _ acc.2 h)

/-- A one-clip project whose every snap target sits at timeline pixel 0:
the clip is at position 0 with a zero-width slice, the playhead is at 0
and the timeline end is at 0. -/
def zeroTargetProject : SnapProject := ⟨[⟨"c", 1, 0, 0, 0⟩], [], [], 0, 0⟩

/-- C10: `getNearbyPosition` never snaps to a target at pixel 0: whenever
the returned snapping position is 0, the returned offset is 0 too (the
"no target" result), and in a project whose clip edges, playhead and
timeline end all sit at pixel 0, a candidate within the threshold still
gets `(0, 0)` — the winner loop requires a truthy target position. -/
theorem nearby_position_never_snaps_to_zero :
    (∀ (proj : SnapProject) (pps : ℚ) (pixel_positions : List ℚ)
        (threshold : ℚ) (ignore_ids : List String) (includeKeyframes : Bool)
        (keyframeTargets : List ℚ),
      (getNearbyPosition proj pps pixel_positions threshold ignore_ids
          includeKeyframes keyframeTargets).2 = 0 →
      (getNearbyPosition proj pps pixel_positions threshold ignore_ids
          includeKeyframes keyframeTargets).1 = 0) ∧
    (getNearbyPosition zeroTargetProject 1 [1/2] 1 [] false [] = (0, 0) ∧
      |(1:ℚ)/2 - 0 * 1| ≤ 1) := by
  constructor
  · intro proj pps pixel_positions threshold ignore_ids includeKeyframes
      keyframeTargets hp
    have hinv := getNearbyPosition_inv proj pps pixel_positions threshold
      ignore_ids includeKeyframes keyframeTargets
    unfold getNearbyPosition at hp ⊢
    simp only at hp ⊢
    rw [hinv hp]
    simp
  · constructor
    · norm_num [getNearbyPosition, diffsForPosition, scanDiffs, scanStep,
        zeroTargetProject, List.foldl, abs]
    · rw [show ((1:ℚ)/2 - 0 * 1) = 1/2 by norm_num,
        abs_of_nonneg (by norm_num : (0:ℚ) ≤ 1/2)]
      norm_num

/-- Witness for `nearby_position_never_snaps_to_zero`: the zero-target
project instantiates the general implication. -/
theorem nearby_position_never_snaps_witness :
    (getNearbyPosition zeroTargetProject 1 [1/2] 1 [] false []).1 = 0 := by
  apply nearby_position_never_snaps_to_zero.1 zeroTargetProject 1 [1/2] 1 []
    false []
  have h := nearby_position_never_snaps_to_zero.2.1
  rw [h]

/-! ## §4.4 Selection state machine (`$scope.selectItem`, chat.js:1557-1821)

The embedding covers item types `clip` and `transition` — all C7 needs,
and the only types with `layer`/`position`/extent fields; the
`item_type === "effect"` paths of the source are disjoint branches never
taken for these types.  `id` is the already-trimmed item id
(`item_id.replace(type_, "")`); modifier keys and mode flags are passed
as booleans; host calls are collected in emission order. -/

/-- A per-clip effect entry as the selection machine sees it. -/
structure SEff where
  id : String
  selected : Bool
  deriving DecidableEq, Repr

/-- A clip as the selection machine sees it. -/
structure SClip where
  id : String
  layer : ℤ
  position : ℚ
  start : ℚ
  stop : ℚ
  selected : Bool
  effects : List SEff
  deriving DecidableEq, Repr

/-- A transition (`project.effects` entry) as the selection machine sees it. -/
structure STran where
  id : String
  layer : ℤ
  position : ℚ
  start : ℚ
  stop : ℚ
  selected : Bool
  deriving DecidableEq, Repr

/-- The selectable item types covered by this embedding. -/
inductive SelType where
  | clip
  | transition
  deriving DecidableEq, Repr

/-- What `$scope.lastSelectedItem` retains of the stored item reference:
the fields later branches read (`position`, `start`, `end`, `layer`). -/
structure LastSel where
  typ : SelType
  id : String
  layer : ℤ
  position : ℚ
  start : ℚ
  stop : ℚ
  deriving DecidableEq, Repr

/-- Outbound host calls of the selection machine. -/
inductive HostCall where
  | addSelection (id : String) (typ : String) (force_clear_others : Bool)
  | removeSelection (id : String) (typ : String)
  | razorSlice (clipId tranId : String) (cursorSeconds : ℚ)
  deriving DecidableEq, Repr

/-- The selection-relevant scope state. -/
structure SelState where
  clips : List SClip
  effects : List STran
  lastSelectedItem : Option LastSel
  deriving Repr

/-- Mutate the first list entry with the given id (`Array.find` followed by
mutation of the found object; ids are unique in the project). -/
def updateFirstClip (id : String) (f : SClip → SClip) :
    List SClip → List SClip
  | [] => []
  | c :: rest =>
    if c.id = id then f c :: rest else c :: updateFirstClip id f rest

/-- Mutate the first transition with the given id. -/
def updateFirstTran (id : String) (f : STran → STran) :
    List STran → List STran
  | [] => []
  | t :: rest =>
    if t.id = id then f t :: rest else t :: updateFirstTran id f rest

/-- Look up the dispatcher's target item and keep the fields
`lastSelectedItem` retains. -/
def findLast (st : SelState) (id : String) (typ : SelType) : Option LastSel :=
  match typ with
  | .clip => (st.clips.find? (fun c => c.id = id)).map
      (fun c => ⟨.clip, c.id, c.layer, c.position, c.start, c.stop⟩)
  | .transition => (st.effects.find? (fun t => t.id = id)).map
      (fun t => ⟨.transition, t.id, t.layer, t.position, t.start, t.stop⟩)

/-- The "clear all clips (and their effects)" loop shared by the shift and
plain branches (chat.js:1685-1695, 1737-1747): flags are cleared and, per
clip, `removeSelection` is emitted for each effect and then for the clip. -/
def clearClipsAndEffects (qt : Bool) (clips : List SClip) :
    List SClip × List HostCall :=
  (clips.map fun c =>
      { c with selected := false,
               effects := c.effects.map (fun e => { e with selected := false }) },
   clips.flatMap fun c =>
     (c.effects.flatMap fun e =>
       if qt then [.removeSelection e.id "effect"] else []) ++
       (if qt then [.removeSelection c.id "clip"] else []))

/-- Clearing the transition list (`removeSelection(id, "transition")`). -/
def clearTransList (qt : Bool) (trans : List STran) :
    List STran × List HostCall :=
  (trans.map fun t => { t with selected := false },
   trans.flatMap fun t =>
     if qt then [.removeSelection t.id "transition"] else [])

/-- The ripple (`alt`/`forceRipple`) branch (chat.js:1616-1679): find the
anchor; mark every same-layer clip and transition at `position ≥ anchor`
as selected (emitting `addSelection`); when `clear_selections` holds and
`ctrl` is absent, emit `removeSelection` for each item that is (still)
unselected and for each unselected clip effect — without changing any
`selected` flag; `lastSelectedItem` is not updated. -/
def rippleAnchor (st : SelState) (id : String) (item_type : SelType) :
    Option (ℤ × ℚ) :=
  match item_type with
  | .clip => (st.clips.find? (fun c => c.id = id)).map
      (fun c => (c.layer, c.position))
  | .transition => (st.effects.find? (fun t => t.id = id)).map
      (fun t => (t.layer, t.position))

def rippleSelect (st : SelState) (qt : Bool) (id : String)
    (item_type : SelType) (clear_selections is_ctrl : Bool) :
    SelState × List HostCall :=
  let marked : List SClip × List STran × List HostCall :=
    match rippleAnchor st id item_type with
    | some (ly, pos) =>
      (st.clips.map (fun c =>
          if c.layer = ly ∧ pos ≤ c.position then { c with selected := true }
          else c),
       st.effects.map (fun t =>
          if t.layer = ly ∧ pos ≤ t.position then { t with selected := true }
          else t),
       (st.clips.flatMap fun c =>
          if c.layer = ly ∧ pos ≤ c.position ∧ qt then
            [.addSelection c.id "clip" false]
          else []) ++
         (st.effects.flatMap fun t =>
            if t.layer = ly ∧ pos ≤ t.position ∧ qt then
              [.addSelection t.id "transition" false]
            else []))
    | none => (st.clips, st.effects, [])
  let clearCalls : List HostCall :=
    if clear_selections ∧ ¬ is_ctrl then
      (marked.1.flatMap fun c =>
        (if ¬ c.selected ∧ qt then [.removeSelection c.id "clip"] else []) ++
          (c.effects.flatMap fun e =>
            if ¬ e.selected ∧ qt then [.removeSelection e.id "effect"]
            else [])) ++
        (marked.2.1.flatMap fun t =>
          if ¬ t.selected ∧ qt then [.removeSelection t.id "transition"]
          else [])
    else []
  ({ st with clips := marked.1, effects := marked.2.1 },
   marked.2.2 ++ clearCalls)

/-- The shift-range branch (chat.js:1682-1735): optionally clear, then
select every clip/transition fully contained in the rectangle spanned by
the anchor extents and layers. -/
def shiftSelect (st : SelState) (qt : Bool) (id : String)
    (item_type : SelType) (clear_selections is_ctrl : Bool) :
    SelState × List HostCall :=
  let cleared : List SClip × List STran × List HostCall :=
    if clear_selections ∧ ¬ is_ctrl then
      let c := clearClipsAndEffects qt st.clips
      let t := clearTransList qt st.effects
      (c.1, t.1, c.2 ++ t.2)
    else (st.clips, st.effects, [])
  let selectedItem? : Option (ℚ × ℚ × ℤ) :=
    match item_type with
    | .clip => (cleared.1.find? (fun c => c.id = id)).map
        (fun c => (c.position, c.position + (c.stop - c.start), c.layer))
    | .transition => (cleared.2.1.find? (fun t => t.id = id)).map
        (fun t => (t.position, t.position + (t.stop - t.start), t.layer))
  match selectedItem?, st.lastSelectedItem with
  | some (sStart, sEnd, sLayer), some last =>
    let lStart := last.position
    let lEnd := last.position + (last.stop - last.start)
    let minPosition := min sStart lStart
    let maxPosition := max sEnd lEnd
    let minLayer := min last.layer sLayer
    let maxLayer := max last.layer sLayer
    let inRangeC : SClip → Prop := fun c =>
      minPosition ≤ c.position ∧ c.position + (c.stop - c.start) ≤ maxPosition ∧
        minLayer ≤ c.layer ∧ c.layer ≤ maxLayer
    let inRangeT : STran → Prop := fun t =>
      minPosition ≤ t.position ∧ t.position + (t.stop - t.start) ≤ maxPosition ∧
        minLayer ≤ t.layer ∧ t.layer ≤ maxLayer
    ({ st with
        clips := cleared.1.map (fun c =>
          if inRangeC c then { c with selected := true } else c),
        effects := cleared.2.1.map (fun t =>
          if inRangeT t then { t with selected := true } else t) },
     cleared.2.2 ++
       (cleared.1.flatMap fun c =>
         if inRangeC c ∧ qt then [.addSelection c.id "clip" false] else []) ++
       (cleared.2.1.flatMap fun t =>
         if inRangeT t ∧ qt then [.addSelection t.id "transition" false]
         else []))
  | _, _ =>
    ({ st with clips := cleared.1, effects := cleared.2.1 }, cleared.2.2)

/-- The plain branch (chat.js:1735-1795): optionally clear everything
(clips with their effects, transitions, and the global effect list again
as `"effect"`), then toggle or select the target. -/
def plainSelect (st : SelState) (qt : Bool) (id : String)
    (item_type : SelType) (clear_selections is_ctrl : Bool) :
    SelState × List HostCall :=
  let cleared : List SClip × List STran × List HostCall :=
    if clear_selections ∧ ¬ is_ctrl then
      let c := clearClipsAndEffects qt st.clips
      let t := clearTransList qt st.effects
      let effCalls := st.effects.flatMap fun e =>
        if qt then [.removeSelection e.id "effect"] else []
      (c.1, t.1, c.2 ++ t.2 ++ effCalls)
    else (st.clips, st.effects, [])
  match item_type with
  | .clip =>
    match cleared.1.find? (fun c => c.id = id) with
    | some item =>
      if is_ctrl ∧ clear_selections ∧ item.selected then
        ({ st with
            clips := updateFirstClip id (fun c => { c with selected := false })
              cleared.1,
            effects := cleared.2.1 },
         cleared.2.2 ++ (if qt then [.removeSelection id "clip"] else []))
      else
        ({ st with
            clips := updateFirstClip id (fun c => { c with selected := true })
              cleared.1,
            effects := cleared.2.1 },
         cleared.2.2 ++ (if qt then [.addSelection id "clip" false] else []))
    | none =>
      ({ st with clips := cleared.1, effects := cleared.2.1 }, cleared.2.2)
  | .transition =>
    match cleared.2.1.find? (fun t => t.id = id) with
    | some item =>
      if is_ctrl ∧ clear_selections ∧ item.selected then
        ({ st with
            clips := cleared.1,
            effects := updateFirstTran id (fun t => { t with selected := false })
              cleared.2.1 },
         cleared.2.2 ++ (if qt then [.removeSelection id "transition"] else []))
      else
        ({ st with
            clips := cleared.1,
            effects := updateFirstTran id (fun t => { t with selected := true })
              cleared.2.1 },
         cleared.2.2 ++
           (if qt then [.addSelection id "transition" false] else []))
    | none =>
      ({ st with clips := cleared.1, effects := cleared.2.1 }, cleared.2.2)

/-- Embeds `$scope.selectItem(item_id, item_type, clear_selections, event,
force_ripple)` (chat.js:1557-1821), for clip/transition item types: the
dragging guard, the empty-id clear, the razor short-circuit, the ripple
branch (which returns without touching `lastSelectedItem`), and the
shift/plain branches followed by the `lastSelectedItem` update (the update
is guarded by `!is_alt`, and `is_alt` always took the ripple return). -/
def selectItem (st : SelState) (dragging razor qt : Bool) (id : String)
    (item_type : SelType) (clear_selections is_ctrl is_shift is_alt
    force_ripple : Bool) (cursor_seconds : ℚ) : SelState × List HostCall :=
  if dragging then (st, [])
  else if id = "" then
    if clear_selections then
      match item_type with
      | .clip =>
        ({ st with clips := st.clips.map (fun c => { c with selected := false }) },
         st.clips.flatMap fun c =>
           if qt then [.removeSelection c.id "clip"] else [])
      | .transition =>
        ({ st with effects := st.effects.map (fun t => { t with selected := false }) },
         st.effects.flatMap fun t =>
           if qt then [.removeSelection t.id "transition"] else [])
    else (st, [])
  else if razor ∧ qt then
    (st, [.razorSlice (if item_type = .clip then id else "")
      (if item_type = .transition then id else "") cursor_seconds])
  else if is_alt ∨ force_ripple then
    rippleSelect st qt id item_type clear_selections is_ctrl
  else
    let branch :=
      if is_shift ∧ st.lastSelectedItem.isSome then
        shiftSelect st qt id item_type clear_selections is_ctrl
      else
        plainSelect st qt id item_type clear_selections is_ctrl
    ({ branch.1 with lastSelectedItem := findLast branch.1 id item_type },
     branch.2)

/-- The state and anchor of the C7 counterexample: clip `x` (layer 1,
selected) and the ripple anchor clip `a` (layer 2, position 5). -/
def rippleState : SelState :=
  ⟨[⟨"x", 1, 0, 0, 2, true, []⟩, ⟨"a", 2, 5, 0, 3, false, []⟩], [], none⟩

/-- C7 counterexample for the claim as stated: alt-clicking clip `a`
(anchor found, `clearSelections = true`, no ctrl) leaves the
already-selected clip `x` on another layer selected — the ripple "clear"
step only emits host `removeSelection` for items that are already
unselected and never flips a `selected` flag, so `x` does not become
unselected as the claim requires. -/
theorem ripple_clear_counterexample :
    ((selectItem rippleState false false true "a" .clip true false false
        true false 0).1.clips.map (fun c => c.selected)) = [true, true] ∧
      ((selectItem rippleState false false true "a" .clip true false false
        true false 0).2 = [.addSelection "a" "clip" false]) ∧
      (true ≠ false) := by
  refine ⟨?_, ?_, by simp⟩ <;> decide

/-- C7 (amended): when `selectItem` runs with alt (or forceRipple) on a
clip or transition whose anchor is found (not dragging, razor off), every
clip and transition on the anchor's layer with `position ≥ anchor.position`
becomes selected; the `selected` flags of all other items are left
unchanged (with `clearSelections` and no ctrl the host is sent
`removeSelection` only for items that are already unselected); and
`lastSelectedItem` is left unchanged. -/
theorem ripple_selection_semantics :
    ∀ (st : SelState) (qt : Bool) (id : String) (typ : SelType)
      (clear ctrl shift alt force : Bool) (cursor : ℚ) (ly : ℤ) (pos : ℚ),
      id ≠ "" →
      (alt = true ∨ force = true) →
      rippleAnchor st id typ = some (ly, pos) →
      (selectItem st false false qt id typ clear ctrl shift alt force
          cursor).1.clips =
          st.clips.map (fun c =>
            if c.layer = ly ∧ pos ≤ c.position then { c with selected := true }
            else c) ∧
        (selectItem st false false qt id typ clear ctrl shift alt force
            cursor).1.effects =
          st.effects.map (fun t =>
            if t.layer = ly ∧ pos ≤ t.position then { t with selected := true }
            else t) ∧
        (selectItem st false false qt id typ clear ctrl shift alt force
            cursor).1.lastSelectedItem = st.lastSelectedItem := by
  intro st qt id typ clear ctrl shift alt force cursor ly pos hid halt hanchor
  have hsel : selectItem st false false qt id typ clear ctrl shift alt force
      cursor = rippleSelect st qt id typ clear ctrl := by
    unfold selectItem
    rw [if_neg (by simp), if_neg hid, if_neg (by simp),
      if_pos (by rcases halt with h | h <;> simp [h])]
  rw [hsel]
  unfold rippleSelect
  rw [hanchor]
  exact ⟨rfl, rfl, rfl⟩

/-- Witness for `ripple_selection_semantics`: instantiated at
`rippleState` with anchor clip `a`. -/
theorem ripple_selection_semantics_witness :
    (selectItem rippleState false false true "a" .clip true false false
        true false 0).1.lastSelectedItem = rippleState.lastSelectedItem := by
  exact (ripple_selection_semantics rippleState true "a" .clip true false
    false true false 0 2 5 (by decide) (Or.inl rfl) (by decide)).2.2

/-! ## §4.11 JSON-diff application (`$scope.applyJsonDiff`, chat.js:2740-2852)

The project replica is a JSON tree.  JS `Math`-free object/array
manipulation maps directly; `hasOwnProperty(key)` is own-field lookup on
objects (the host's keys are entity property names, never array indices
or `"length"`); `child_object.id === id` is `JVal` equality.  The
deferred `sortItems`/`updateLayerIndex` passes run in a later tick
(`$evalAsync`/`setTimeout`) and are outside the per-action mutation
embedded here. -/

/-- A JSON value. -/
inductive JVal where
  | num (q : ℚ)
  | str (s : String)
  | bool (b : Bool)
  | null
  | arr (elems : List JVal)
  | obj (fields : List (String × JVal))

/-- JS truthiness of the walked `current_object`
(`if (current_object)`, chat.js:2792). -/
def jsTruthy : JVal → Bool
  | .num q => q ≠ 0
  | .str s => s ≠ ""
  | .bool b => b
  | .null => false
  | .arr _ => true
  | .obj _ => true

/-- Own-property test (`hasOwnProperty`). -/
def hasProp (v : JVal) (k : String) : Bool :=
  match v with
  | .obj fields => (fields.find? (fun f => f.1 = k)).isSome
  | _ => false

/-- One step of an access path into the tree. -/
inductive Step where
  | field (k : String)
  | idx (i : ℕ)
  deriving DecidableEq, Repr

/-- Navigate a path. -/
def getPath : List Step → JVal → Option JVal
  | [], v => some v
  | .field k :: rest, .obj fields =>
    match fields.find? (fun f => f.1 = k) with
    | some f => getPath rest f.2
    | none => none
  | .idx i :: rest, .arr elems =>
    match elems[i]? with
    | some e => getPath rest e
    | none => none
  | _ :: _, _ => none

/-- Mutate the node at a path (the JS mutation happens through the live
reference; paths produced by the walk always resolve). -/
def updateAt : List Step → (JVal → JVal) → JVal → JVal
  | [], f, v => f v
  | .field k :: rest, f, .obj fields =>
    .obj (fields.map fun kv => if kv.1 = k then (kv.1, updateAt rest f kv.2) else kv)
  | .idx i :: rest, f, .arr elems =>
    .arr (elems.mapIdx fun j v => if j = i then updateAt rest f v else v)
  | _ :: _, _, v => v

/-- A primitive JSON value, the kind of value carried by an `{ id: … }`
selector (the host's entity ids are strings or numbers; for objects JS
`===` would be reference equality, out of scope here; a selector without
`id` carries `null`). -/
inductive JPrim where
  | str (s : String)
  | num (q : ℚ)
  | bool (b : Bool)
  | null
  deriving DecidableEq, Repr

/-- JS strict equality `child.id === id` between a stored field value and
a selector primitive. -/
def primEq (v : JVal) (p : JPrim) : Bool :=
  match v, p with
  | .str s, .str t => s == t
  | .num a, .num b => a == b
  | .bool a, .bool b => a == b
  | .null, .null => true
  | _, _ => false

/-- One element of an action's `key` array: a property name or an
`{ id: … }` selector. -/
inductive DiffKey where
  | prop (s : String)
  | sel (id : JPrim)
  deriving Repr

/-- An `UpdateAction` `{ type, key, value }`. -/
structure DiffAction where
  type : String
  key : List DiffKey
  value : JVal

/-- The walk state (`previous_object`, `current_object`,
`current_position`, `current_key`), with the two objects represented by
their access paths (`prev = none` embeds the initial JS `null`). -/
structure WalkState where
  prev : Option (List Step)
  cur : List Step
  pos : ℕ
  key : String
  deriving DecidableEq, Repr

/-- The length of the project's `clips` array: an observable separating
the mutated replicas below from the original. -/
def clipsLength (v : JVal) : ℕ :=
  match getPath [.field "clips"] v with
  | some (.arr elems) => elems.length
  | _ => 0

/-- First array index whose element is an object with the given `id`
(`child_object.hasOwnProperty("id") && child_object.id === id`,
chat.js:2779-2785). -/
def findIdxWithId (elems : List JVal) (id : JPrim) : Option ℕ :=
  elems.findIdx? fun v =>
    match v with
    | .obj fields =>
      match fields.find? (fun f => f.1 = "id") with
      | some f => primEq f.2 id
      | none => false
    | _ => false

/-- One iteration of the key loop (chat.js:2750-2790).  A `String` key not
present at the current level only `continue`s to the next key — the walk
state is left unchanged, the action is NOT skipped (the inline comment
"No match, skip this action" notwithstanding); an `{id}` selector only
matches when the current object is an array, and on a failed match leaves
`prev`/`cur` unchanged with `pos` at the array length. -/
def walkStep (root : JVal) (st : WalkState) (kv : DiffKey) : WalkState :=
  match getPath st.cur root with
  | none => st
  | some curObj =>
    match kv with
    | .prop k =>
      match curObj with
      | .obj fields =>
        if (fields.find? (fun f => f.1 = k)).isSome then
          ⟨some st.cur, st.cur ++ [.field k], st.pos, k⟩
        else st
      | _ => st
    | .sel id =>
      match curObj with
      | .arr elems =>
        match findIdxWithId elems id with
        | some i => ⟨some st.cur, st.cur ++ [.idx i], i, st.key⟩
        | none => { st with pos := elems.length }
      | _ => st

/-- The whole key loop. -/
def walkKeys (root : JVal) (keys : List DiffKey) : WalkState :=
  keys.foldl (walkStep root) ⟨none, [], 0, ""⟩

/-- Embeds `previous_object[current_position] = value` / array index assignment
(indices produced by the walk satisfy `pos ≤ length`; JS `arr[len] = v`
appends). -/
def arrSetIdx (elems : List JVal) (i : ℕ) (v : JVal) : List JVal :=
  if i < elems.length then elems.mapIdx (fun j x => if j = i then v else x)
  else elems ++ [v]

/-- Embeds `previous_object.splice(current_position, 1)` (a splice at or past the
length removes nothing). -/
def arrSpliceIdx (elems : List JVal) (i : ℕ) : List JVal :=
  if i < elems.length then elems.eraseIdx i else elems

/-- Embeds `previous_object[current_key] = value` on an object: replace the slot
or add the field. -/
def objSetField (fields : List (String × JVal)) (k : String) (v : JVal) :
    List (String × JVal) :=
  if (fields.find? (fun f => f.1 = k)).isSome then
    fields.map (fun f => if f.1 = k then (k, v) else f)
  else fields ++ [(k, v)]

/-- The shared "replace the entire value in the parent" step
(chat.js:2798-2808, 2818-2827): with `previous_object = null` the JS
throws a `TypeError` (`none`); with a parent that is neither array nor
object nothing happens. -/
def replaceInPrev (root : JVal) (st : WalkState) (value : JVal) :
    Option JVal :=
  match st.prev with
  | none => none
  | some p =>
    match getPath p root with
    | some (.arr _) =>
      some (updateAt p (fun v =>
        match v with
        | .arr elems => .arr (arrSetIdx elems st.pos value)
        | other => other) root)
    | some (.obj _) =>
      some (updateAt p (fun v =>
        match v with
        | .obj fields => .obj (objSetField fields st.key value)
        | other => other) root)
    | _ => some root

/-- Processing of one action (chat.js:2740-2846): walk the key path, then
insert/update/delete at wherever the walk ended.  `none` embeds a thrown
`TypeError` (`previous_object.constructor` or `action.value.constructor`
on `null`). -/
def applyJsonDiffAction (root : JVal) (a : DiffAction) : Option JVal :=
  let st := walkKeys root a.key
  match getPath st.cur root with
  | none => some root
  | some curObj =>
    if ¬ jsTruthy curObj then some root
    else if a.type = "insert" then
      match curObj with
      | .arr _ =>
        some (updateAt st.cur (fun v =>
          match v with
          | .arr elems => .arr (elems ++ [a.value])
          | other => other) root)
      | _ => replaceInPrev root st a.value
    else if a.type = "update" then
      match curObj, a.value with
      | .obj _, .obj vfields =>
        some (updateAt st.cur (fun v =>
          match v with
          | .obj fields =>
            .obj (vfields.foldl (fun fs kv => objSetField fs kv.1 kv.2) fields)
          | other => other) root)
      | .obj _, .null => none
      | _, _ => replaceInPrev root st a.value
    else if a.type = "delete" then
      match st.prev with
      | none => none
      | some p =>
        match getPath p root with
        | some (.arr _) =>
          some (updateAt p (fun v =>
            match v with
            | .arr elems => .arr (arrSpliceIdx elems st.pos)
            | other => other) root)
        | some (.obj _) =>
          some (updateAt p (fun v =>
            match v with
            | .obj fields => .obj (fields.filter (fun f => ¬ f.1 = st.key))
            | other => other) root)
        | _ => some root
    else some root

/-- Embeds `$scope.applyJsonDiff(jsonDiff)`: the action loop; an exception aborts
the remaining actions. -/
def applyJsonDiff (root : JVal) : List DiffAction → Option JVal
  | [] => some root
  | a :: rest =>
    match applyJsonDiffAction root a with
    | some r => applyJsonDiff r rest
    | none => none

/-- A small project replica: empty `clips` array and an `fps` object. -/
def demoProject : JVal :=
  .obj [("clips", .arr []), ("fps", .obj [("num", .num 24), ("den", .num 1)])]

/-- What the unknown-key update actually produces: the value is merged
into the project ROOT. -/
def demoMutatedProject : JVal :=
  .obj [("clips", .arr []), ("fps", .obj [("num", .num 24), ("den", .num 1)]),
    ("foo", .num 1)]

/-- What the unknown-id insert actually produces: the value is pushed into
the `clips` array the selector failed to resolve into. -/
def demoInsertedProject : JVal :=
  .obj [("clips", .arr [.obj [("id", .str "new")]]),
    ("fps", .obj [("num", .num 24), ("den", .num 1)])]

/-- C6: the code contradicts its own inline comment ("No match, skip this
action"): a `String` key missing from the current level only skips that
KEY level (`continue` continues the key loop, not the action loop), so the
action is applied at the node the walk stopped at.  An `update` whose key
path is the unknown property `"bogus"` merges its value into the project
root; an `insert` whose `{id}` selector matches nothing pushes its value
into the array.  Both mutate the project although the claim (and the
comment) say the action is a no-op. -/
theorem applyJsonDiff_unknown_key_mutates :
    applyJsonDiffAction demoProject
        ⟨"update", [.prop "bogus"], .obj [("foo", .num 1)]⟩ =
      some demoMutatedProject ∧
    hasProp demoProject "bogus" = false ∧
    hasProp demoProject "foo" = false ∧
    hasProp demoMutatedProject "foo" = true ∧
    applyJsonDiffAction demoProject
        ⟨"insert", [.prop "clips", .sel (.str "nope")],
          .obj [("id", .str "new")]⟩ =
      some demoInsertedProject ∧
    clipsLength demoInsertedProject = 1 ∧ clipsLength demoProject = 0 ∧
    hasProp demoMutatedProject "bogus" = false := by
  refine ⟨rfl, rfl, rfl, rfl, rfl, rfl, rfl, rfl⟩

end Timeline
